import Mathlib

/-!
Shallow embedding of the k5 microkernel core (repository sphw/k5) and proofs
about its scheduler, IPC engine, capability store, pointer validation and
syscall handlers.  Every definition is translated from the Rust sources under
src/kernel (file and line references are given on each definition).  Code of
the repository that is absent from src/ (newer versions of a few glue
functions) is modelled from the specification and marked as such in its doc
comment.  The intrusive linked lists of the kernel are built on the external
crate cordyceps, whose cursor mirrors the documented semantics of
std::collections::LinkedList cursors (a ghost element before the front; the
cursor wraps through the ghost; remove_current removes the pointed-at node and
moves the cursor to the following node); the embedding reproduces exactly that
behaviour.
-/

deriving instance DecidableEq for Except
deriving instance Repr for Except

namespace K5

/-- ABI-level error codes (abi crate).  The variants ReturnTypeMismatch,
BadAccess, BufferOverflow and Unknown appear in src/abi/src/lib.rs; the
current abi crate additionally has PortNotOpen and InvalidCap (used throughout
src/kernel), modelled from the spec's closed error set. -/
inductive AbiError where
  | returnTypeMismatch
  | badAccess
  | bufferOverflow
  | portNotOpen
  | invalidCap
  | invalidLoan
  | unknown (code : Nat)
deriving DecidableEq, Repr

/-- Kernel-internal error type, src/kernel/src/lib.rs (enum KernelError) plus
the InitTCBNotFound variant used by PanikCall::exec in
src/kernel/src/syscalls.rs. -/
inductive KernelError where
  | invalidPriority
  | invalidThreadRef
  | invalidTaskRef
  | invalidEntrypoint
  | tooManyThreads
  | invalidCapRef
  | wrongCapabilityType
  | stackExhausted
  | invalidTaskPtr
  | initTCBNotFound
  | abi (e : AbiError)
deriving DecidableEq, Repr

/-- Region attribute flags, src/kernel/src/regions.rs (enum RegionAttr). -/
structure RegionAttr where
  write : Bool
  read : Bool
  exec : Bool
  device : Bool
  dma : Bool
deriving DecidableEq, Repr

/-- An attribute set with all flags cleared (BitFlags::default). -/
def RegionAttr.none : RegionAttr := ⟨false, false, false, false, false⟩

/-- A memory region: a half-open address range with an attribute set,
src/kernel/src/regions.rs (struct Region). -/
structure Region where
  rangeStart : Nat
  rangeEnd : Nat
  attr : RegionAttr
deriving DecidableEq, Repr

/-- Range::contains for a half-open usize range (start <= a < end). -/
def Region.containsAddr (r : Region) (a : Nat) : Bool :=
  r.rangeStart ≤ a && a < r.rangeEnd

/-- Pointer validation on cortex-m, src/kernel/src/arch/cortex_m.rs lines
384-389 (fn validate_addr): the range end is computed as addr + len and both
addr and end must be contained in a single region that carries the Read
attribute.  Note that only Read is consulted, for mutable and immutable
translations alike. -/
def validateAddrCortexM (addr len : Nat) (regions : List Region) : Bool :=
  regions.any fun r =>
    r.containsAddr addr && r.containsAddr (addr + len) && r.attr.read

/-- Pointer validation on rv64, src/kernel/src/arch/rv64.rs lines 146-151
(fn validate_addr): as on cortex-m but with the inclusive end addr + len - 1.
Only the Read attribute is consulted. -/
def validateAddrRv64 (addr len : Nat) (regions : List Region) : Bool :=
  regions.any fun r =>
    r.containsAddr addr && r.containsAddr (addr + len - 1) && r.attr.read

/-- translate_task_ptr (shared read translation), src/kernel/src/arch/rv64.rs
lines 126-134: validation outcome of translating an immutable task pointer.
The returned reference itself is not modelled; the Bool is whether translation
succeeds. -/
def translateTaskPtrOk (addr len : Nat) (regions : List Region) : Bool :=
  validateAddrRv64 addr len regions

/-- translate_mut_task_ptr (mutable translation), src/kernel/src/arch/rv64.rs
lines 136-144: it calls the very same validate_addr as the immutable
translation, so it too only requires the Read attribute. -/
def translateMutTaskPtrOk (addr len : Nat) (regions : List Region) : Bool :=
  validateAddrRv64 addr len regions

/-- Mutable translation on cortex-m, src/kernel/src/arch/cortex_m.rs lines
374-382; identical to the immutable one there as well. -/
def translateMutTaskPtrOkCortexM (addr len : Nat) (regions : List Region) : Bool :=
  validateAddrCortexM addr len regions

/-- Port identifiers are opaque 16-byte values compared for equality
(abi::PortId = [u8; 16]); modelled as byte lists. -/
abbrev PortId := List Nat

/-- An endpoint capability payload, src/abi/src/caps.rs (struct Endpoint):
the right to send to thread tcb_ref at a 32-bit address, optionally consumed
on use. -/
structure Endpoint where
  tcbRef : Nat
  addr : Nat
  disposable : Bool
deriving DecidableEq, Repr

/-- Capability variants, src/abi/src/caps.rs (enum Cap). -/
inductive Cap where
  | endpoint (e : Endpoint)
  | listen (port : PortId)
  | connect (port : PortId)
  | notification
deriving DecidableEq, Repr

/-- A node of a TCB's intrusive capability list, src/kernel/src/lib.rs
(struct CapEntry).  A user-visible CapRef is the heap address of the node;
the model carries that address explicitly in nodeAddr. -/
structure CapEntry where
  nodeAddr : Nat
  cap : Cap
deriving DecidableEq, Repr

/-- Message body, src/kernel/src/syscalls.rs / tcb.rs (enum IPCMsgBody):
either an owned byte buffer (copy transport) or a loaned page given by
pointer and length. -/
inductive IPCMsgBody where
  | buf (data : List Nat)
  | page (addr len : Nat)
deriving DecidableEq, Repr

/-- A queued inbound IPC message: target addr, optional reply endpoint
(present iff the message arose from a call) and a body
(src/kernel/src/lib.rs struct IPCMsg / IPCMsgInner, with the body variants of
the current IPCMsgBody used by tcb.rs). -/
structure IPCMsg where
  addr : Nat
  replyEndpoint : Option Endpoint
  body : IPCMsgBody
deriving DecidableEq, Repr

/-- Thread state, src/kernel/src/lib.rs (enum ThreadState).  Waiting carries
the receive mask, the out-buffer task pointer (address and length) and the
response-header task pointer. -/
inductive ThreadState where
  | ready
  | running
  | waiting (addr : Nat) (outBufAddr : Nat) (outBufLen : Nat) (recvRespPtr : Nat)
deriving DecidableEq, Repr

/-- Syscall return type tag, src/abi/src/lib.rs (enum SyscallReturnType). -/
inductive SyscallReturnType where
  | error
  | short
  | page
  | copy
deriving DecidableEq, Repr

/-- The 64-bit syscall return word, src/abi/src/lib.rs (bitfield
SyscallReturn), modelled as its fields (type tag, cap, len, ptr) instead of
the packed bit layout. -/
structure SyscallReturn where
  typ : SyscallReturnType
  cap : Nat
  len : Nat
  ptr : Nat
deriving DecidableEq, Repr

/-- SyscallReturn::new(): the all-zero word, whose type tag decodes to
Error with sub-code 0. -/
def SyscallReturn.new : SyscallReturn := ⟨.error, 0, 0, 0⟩

/-- Numeric sub-codes of ABI errors (impl From&lt;Error&gt; for u8 in
src/abi/src/lib.rs gives 1-3; the codes of the PortNotOpen / InvalidCap /
InvalidLoan variants of the current abi crate are missing from src/ and are
modelled from the spec's listing order). -/
def AbiError.code : AbiError → Nat
  | .returnTypeMismatch => 1
  | .badAccess => 2
  | .bufferOverflow => 3
  | .portNotOpen => 4
  | .invalidCap => 5
  | .invalidLoan => 6
  | .unknown c => c

/-- Conversion of an ABI error into a syscall return word (impl
From&lt;Error&gt; for SyscallReturn in src/abi/src/lib.rs): type tag Error,
sub-code in the len field. -/
def AbiError.toReturn (e : AbiError) : SyscallReturn :=
  { SyscallReturn.new with typ := .error, len := e.code }

/-- Error handling of the syscall trap entry, src/kernel/src/arch/cortex_m.rs
lines 321-332 (fn syscall_inner): an ABI error becomes an error return
written to the caller; every other KernelError is unwrapped, i.e. a kernel
panic — modelled as none. -/
def syscallErrorToUser : KernelError → Option SyscallReturn
  | .abi e => some e.toReturn
  | _ => none

/-- Task lifecycle state, src/kernel/src/task.rs (enum TaskState). -/
inductive TaskState where
  | pending
  | started
deriving DecidableEq, Repr

/-- A task, src/kernel/src/task.rs (struct Task): region table, stack sizing
and allocator state, entrypoint address and lifecycle state.  Stack ranges
are half-open (start, end) pairs. -/
structure Task where
  regionTable : List Region
  stackSize : Nat
  initialStackStart : Nat
  initialStackEnd : Nat
  availableStackPtr : List (Nat × Nat)
  entrypoint : Nat
  secure : Bool
  state : TaskState
deriving DecidableEq, Repr

/-- Task::reset_stack_ptr, src/kernel/src/task.rs lines 48-50: the stack
allocator is reset to the single initial range. -/
def Task.resetStackPtr (t : Task) : Task :=
  { t with availableStackPtr := [(t.initialStackStart, t.initialStackEnd)] }

/-- Helper for Task::alloc_stack: scan the available ranges in order for the
first one at least stackSize long, bump its start, and return the new start
together with the rebuilt range list (processed prefix in acc). -/
def allocStackGo (stackSize : Nat) :
    List (Nat × Nat) → List (Nat × Nat) → Option (Nat × List (Nat × Nat))
  | [], _ => none
  | (s, e) :: rest, acc =>
    if stackSize ≤ e - s then
      some (s + stackSize, acc.reverse ++ (s + stackSize, e) :: rest)
    else
      allocStackGo stackSize rest ((s, e) :: acc)

/-- Task::alloc_stack, src/kernel/src/task.rs lines 66-75: find the first
available range at least stack_size long (Range::len), bump its start by
stack_size and return the new start. -/
def Task.allocStack (t : Task) : Option (Nat × Task) :=
  match allocStackGo t.stackSize t.availableStackPtr [] with
  | none => none
  | some (sp, ranges) => some (sp, { t with availableStackPtr := ranges })

/-- Task::validate_mut_ptr specialised to byte buffers: range validation of a
user (addr, len) pair against the task's region table
(src/kernel/src/task.rs lines 59-64, via arch::translate_mut_task_ptr). -/
def Task.validateBuf (t : Task) (addr len : Nat) : Bool :=
  translateMutTaskPtrOk addr len t.regionTable

/-- A thread control block, src/kernel/src/tcb.rs (struct Tcb). -/
structure Tcb where
  task : Nat
  reqQueue : List IPCMsg
  state : ThreadState
  priority : Nat
  budget : Nat
  cooldown : Nat
  capabilities : List CapEntry
  stackPointer : Nat
  entrypoint : Nat
  epoch : Nat
  remTime : Nat
  savedReturn : SyscallReturn
deriving DecidableEq, Repr

/-- Tcb::new, src/kernel/src/tcb.rs lines 31-57: state Ready, empty inbound
queue, rem_time initialised to the budget, capabilities as given.  The
savedReturn field models the syscall-return slot of the saved register
state (zeroed initially). -/
def Tcb.new (task stackPointer priority budget cooldown entrypoint epoch : Nat)
    (caps : List CapEntry) : Tcb :=
  { task := task
    reqQueue := []
    state := .ready
    priority := priority
    budget := budget
    cooldown := cooldown
    capabilities := caps
    stackPointer := stackPointer
    entrypoint := entrypoint
    epoch := epoch
    remTime := budget
    savedReturn := SyscallReturn.new }

/-- Tcb::cap_entry, src/kernel/src/tcb.rs lines 59-68: walk the capability
list for the node whose address equals the cap-ref. -/
def Tcb.capEntryFind (t : Tcb) (capRef : Nat) : Option CapEntry :=
  t.capabilities.find? fun c => c.nodeAddr == capRef

/-- Tcb::cap, src/kernel/src/tcb.rs lines 70-72 (and cap_entry's error case):
the capability at a cap-ref, or InvalidCapRef when no node has that
address. -/
def Tcb.cap (t : Tcb) (capRef : Nat) : Except KernelError Cap :=
  match t.capEntryFind capRef with
  | some e => .ok e.cap
  | none => .error .invalidCapRef

/-- Tcb::endpoint, src/kernel/src/tcb.rs lines 74-89: look up a cap-ref,
require it to be an Endpoint (else the ABI InvalidCap error), and remove the
node from the list when the endpoint is disposable.  Returns the endpoint
together with the updated TCB. -/
def Tcb.endpoint (t : Tcb) (capRef : Nat) : Except KernelError (Endpoint × Tcb) :=
  match t.capEntryFind capRef with
  | none => .error .invalidCapRef
  | some entry =>
    match entry.cap with
    | .endpoint ep =>
      if ep.disposable then
        .ok (ep, { t with capabilities := t.capabilities.eraseP fun c => c.nodeAddr == capRef })
      else
        .ok (ep, t)
    | _ => .error (.abi .invalidCap)

/-- Tcb::add_cap, src/kernel/src/tcb.rs lines 91-96: append a fresh node to
the back of the capability list.  The heap address of the new node is passed
explicitly as freshAddr. -/
def Tcb.addCap (t : Tcb) (freshAddr : Nat) (cap : Cap) : Tcb :=
  { t with capabilities := t.capabilities ++ [⟨freshAddr, cap⟩] }

/-- The slab allocator Space&lt;T, N&gt;, src/kernel/src/space.rs.  The
capacity N is the length of items; freeList and len evolve exactly as in the
source. -/
structure Space (α : Type) where
  items : List (Option α)
  freeList : List Nat
  len : Nat
deriving DecidableEq, Repr

/-- The TCB table bound (src/kernel/src/scheduler.rs uses
Space&lt;Tcb, TCB_CAPACITY&gt;; PanikCall::exec scans indices 0..16). -/
def TCB_CAPACITY : Nat := 16

/-- Space::default, src/kernel/src/space.rs lines 10-28: all slots empty and
free_list[i] = N - (i + 1). -/
def Space.empty (α : Type) (N : Nat) : Space α :=
  ⟨List.replicate N none, (List.range N).map fun i => N - (i + 1), 0⟩

/-- Space::push, src/kernel/src/space.rs lines 31-39: refuse when full,
otherwise allocate the slot free_list[N - len] (len after increment) and
return its index. -/
def Space.push (s : Space α) (item : α) : Option (Space α × Nat) :=
  if s.items.length ≤ s.len then none
  else
    let len' := s.len + 1
    let i := s.freeList.getD (s.items.length - len') 0
    some ({ items := s.items.set i (some item), freeList := s.freeList, len := len' }, i)

/-- Space::get, src/kernel/src/space.rs lines 41-43. -/
def Space.get (s : Space α) (i : Nat) : Option α :=
  s.items.getD i none

/-- Space::remove, src/kernel/src/space.rs lines 49-54: take the item out of
slot i, record i in the free list at position N - len (old len) and decrement
len. -/
def Space.remove (s : Space α) (i : Nat) : Option (Space α × α) :=
  match s.items.getD i none with
  | none => none
  | some item =>
    some ({ items := s.items.set i none,
            freeList := s.freeList.set (s.items.length - s.len) i,
            len := s.len - 1 }, item)

/-- Writing through a reference obtained from Space::get_mut: overwrite slot
i (only used after a successful get). -/
def Space.setItem (s : Space α) (i : Nat) (v : α) : Space α :=
  { s with items := s.items.set i (some v) }

/-- A ready-queue node, src/kernel/src/scheduler.rs (the current DomainEntry
used there: a thread reference plus the optional loaner for priority
inheritance). -/
structure DomainEntry where
  tcbRef : Nat
  loanedTcb : Option Nat
deriving DecidableEq, Repr

/-- DomainEntry::new(tcb_ref, loaned_tcb) as called in
src/kernel/src/scheduler.rs. -/
def DomainEntry.new (tcbRef : Nat) (loanedTcb : Option Nat) : DomainEntry :=
  ⟨tcbRef, loanedTcb⟩

/-- Modelled from the spec: DomainEntry::idle belongs to the current crate
root, which is missing from src/.  Thread 0 is the idle thread
(abi::ThreadRef::idle() = ThreadRef(0) in src/abi/src/lib.rs; the builder
spawns the idle thread first), carrying no loan. -/
def DomainEntry.idle : DomainEntry := ⟨0, none⟩

/-- An exhausted-list node, src/kernel/src/scheduler.rs lines 206-212:
remaining cooldown, the thread it parks, and the loan it carried. -/
structure ExhaustedThread where
  time : Nat
  tcbRef : Option Nat
  loanedTcb : Option Nat
deriving DecidableEq, Repr

/-- The current-thread record, src/kernel/src/scheduler.rs lines 231-236. -/
structure ThreadTime where
  tcbRef : Nat
  time : Nat
  loanedTcb : Option Nat
deriving DecidableEq, Repr

/-- ThreadTime::time_thread, src/kernel/src/scheduler.rs lines 238-242: the
thread whose budget is being consumed (the loaner when a loan is active). -/
def ThreadTime.timeThread (t : ThreadTime) : Nat :=
  t.loanedTcb.getD t.tcbRef

/-- Scheduler state, src/kernel/src/scheduler.rs lines 15-20: the TCB slab,
one FIFO ready queue per priority (index = priority, length 8), the
exhausted-thread list and the current-thread record. -/
structure Scheduler where
  tcbs : Space Tcb
  domains : List (List DomainEntry)
  exhausted : List ExhaustedThread
  current : ThreadTime
deriving DecidableEq, Repr

/-- PRIORITY_COUNT, src/kernel/src/lib.rs line 44. -/
def PRIORITY_COUNT : Nat := 8

/-- Scheduler::get_tcb, src/kernel/src/scheduler.rs lines 194-196. -/
def Scheduler.getTcb (s : Scheduler) (r : Nat) : Except KernelError Tcb :=
  match s.tcbs.get r with
  | some t => .ok t
  | none => .error .invalidThreadRef

/-- Scheduler::spawn, src/kernel/src/scheduler.rs lines 23-35: look up the
priority's domain (InvalidPriority), push the TCB into the slab
(TooManyThreads) and append a loan-free entry at the tail of the domain. -/
def Scheduler.spawn (s : Scheduler) (tcb : Tcb) : Except KernelError (Scheduler × Nat) :=
  match s.domains.get? tcb.priority with
  | none => .error .invalidPriority
  | some d =>
    match s.tcbs.push tcb with
    | none => .error .tooManyThreads
    | some (tcbs', i) =>
      .ok ({ s with
             tcbs := tcbs',
             domains := s.domains.set tcb.priority (d ++ [DomainEntry.new i none]) }, i)

/-- The priorities scanned by Scheduler::next_thread for a given current
priority: domains.iter_mut().rev().take(PRIORITY_COUNT - 1 - cp), i.e.
priorities 7 down to cp + 1 (priority 0, the idle domain, is never
scanned). -/
def priosAbove (cp : Nat) : List Nat :=
  [7, 6, 5, 4, 3, 2, 1].filter fun p => cp < p

/-- Pop the front of the first non-empty domain among the given priorities. -/
def popDomains (domains : List (List DomainEntry)) :
    List Nat → Option (DomainEntry × List (List DomainEntry))
  | [] => none
  | p :: ps =>
    match domains.getD p [] with
    | [] => popDomains domains ps
    | e :: rest => some (DomainEntry.new e.tcbRef e.loanedTcb, domains.set p rest)

/-- Scheduler::next_thread, src/kernel/src/scheduler.rs lines 58-74: scan the
ready queues from priority 7 down to current_priority + 1 and pop the front
of the first non-empty one, rebuilding the entry (tcb_ref and loaned_tcb are
copied). -/
def Scheduler.nextThread (s : Scheduler) (cp : Nat) : Option (DomainEntry × Scheduler) :=
  (popDomains s.domains (priosAbove cp)).map fun pr => (pr.1, { s with domains := pr.2 })

/-- Scheduler::add_thread, src/kernel/src/scheduler.rs lines 76-83: append a
loan-free entry at the tail of the priority's ready queue. -/
def Scheduler.addThread (s : Scheduler) (priority tcbRef : Nat) :
    Except KernelError Scheduler :=
  match s.domains.get? priority with
  | none => .error .invalidPriority
  | some d =>
    .ok { s with domains := s.domains.set priority (d ++ [DomainEntry.new tcbRef none]) }

/-- One visit of an exhausted-list entry during Scheduler::tick
(src/kernel/src/scheduler.rs lines 99-115): entries without a thread are
ignored; otherwise the cooldown is decremented (saturating) and, on reaching
zero, a ready-queue entry preserving the loan is appended at the tail of the
thread's priority domain.  The Bool reports whether the entry expired (which
sets the loop's remove_flag). -/
def processExhausted (tcbs : Space Tcb) (domains : List (List DomainEntry))
    (e : ExhaustedThread) :
    Except KernelError (ExhaustedThread × List (List DomainEntry) × Bool) :=
  match e.tcbRef with
  | none => .ok (e, domains, false)
  | some r =>
    let e' : ExhaustedThread := { e with time := e.time - 1 }
    if e'.time = 0 then
      match tcbs.get r with
      | none => .error .invalidThreadRef
      | some tcb =>
        match domains.get? tcb.priority with
        | none => .error .invalidPriority
        | some d =>
          .ok (e', domains.set tcb.priority (d ++ [DomainEntry.new r e.loanedTcb]), true)
    else
      .ok (e', domains, false)

/-- The exhausted-list loop of Scheduler::tick after remove_flag has been
set (src/kernel/src/scheduler.rs lines 88-117).  The flag is never cleared,
so from here every iteration begins by removing the node under the cursor
(the entry processed in the previous iteration, the head of cur), then moves
the cursor one node further and processes the node there.  kept holds the
nodes the cursor has passed over and left in the list.  Removing the last
node parks the cursor on the ghost element, from which move_next wraps to
the front of what remains (cordyceps cursors mirror std::collections::
LinkedList cursor semantics).  fuel = kept.length + cur.length strictly
decreases across calls, so the zero-fuel branch is never taken. -/
def requeuePhaseB (tcbs : Space Tcb) :
    Nat → List (List DomainEntry) → List ExhaustedThread → List ExhaustedThread →
    Except KernelError (List ExhaustedThread × List (List DomainEntry))
  | 0, domains, kept, cur => .ok (kept ++ cur, domains)
  | _ + 1, domains, kept, [] => .ok (kept, domains)
  | fuel + 1, domains, kept, _ :: rest =>
    match rest with
    | [] =>
      match kept with
      | [] => .ok ([], domains)
      | k :: ks =>
        match processExhausted tcbs domains k with
        | .error err => .error err
        | .ok (k', domains', _) => requeuePhaseB tcbs fuel domains' [] (k' :: ks)
    | [y] => .ok (kept ++ [y], domains)
    | y :: z :: rest' =>
      match processExhausted tcbs domains z with
      | .error err => .error err
      | .ok (z', domains', _) => requeuePhaseB tcbs fuel domains' (kept ++ [y]) (z' :: rest')

/-- The exhausted-list loop of Scheduler::tick while remove_flag is still
false (src/kernel/src/scheduler.rs lines 88-117): walk the list front to
back processing each entry in place; the first expiring entry sets
remove_flag, after which control continues as requeuePhaseB with the cursor
on the expired entry. -/
def requeuePhaseA (tcbs : Space Tcb) :
    List (List DomainEntry) → List ExhaustedThread → List ExhaustedThread →
    Except KernelError (List ExhaustedThread × List (List DomainEntry))
  | domains, kept, [] => .ok (kept, domains)
  | domains, kept, x :: rest =>
    match processExhausted tcbs domains x with
    | .error err => .error err
    | .ok (x', domains', expired) =>
      if expired then
        requeuePhaseB tcbs (kept.length + rest.length + 1) domains' kept (x' :: rest)
      else
        requeuePhaseA tcbs domains' (kept ++ [x']) rest

/-- The idiom next_thread(0).unwrap_or_else(DomainEntry::idle) used by
Scheduler::tick, Scheduler::wait and PanikCall::exec: choose the next ready
entry above priority cp, falling back to the idle entry. -/
def Scheduler.pickNext (s : Scheduler) (cp : Nat) : DomainEntry × Scheduler :=
  match s.nextThread cp with
  | some pr => pr
  | none => (DomainEntry.idle, s)

/-- Scheduler::switch_thread, src/kernel/src/scheduler.rs lines 146-181:
save the running quantum into the departing time-accounting TCB (the loaner
when a loan is active), then load the new quantum from the incoming entry's
time-accounting TCB: its rem_time when non-zero, else its full budget. -/
def Scheduler.switchThread (s : Scheduler) (next : DomainEntry) :
    Except KernelError (Scheduler × Nat) :=
  let saveRef := s.current.loanedTcb.getD s.current.tcbRef
  match s.tcbs.get saveRef with
  | none => .error .invalidThreadRef
  | some saveTcb =>
    let tcbs' := s.tcbs.setItem saveRef { saveTcb with remTime := s.current.time }
    match tcbs'.get (next.loanedTcb.getD next.tcbRef) with
    | none => .error .invalidThreadRef
    | some timeTcb =>
      .ok ({ s with
             tcbs := tcbs',
             current := ⟨next.tcbRef,
                         if 0 < timeTcb.remTime then timeTcb.remTime else timeTcb.budget,
                         next.loanedTcb⟩ }, next.tcbRef)

/-- Scheduler::tick, src/kernel/src/scheduler.rs lines 85-144: requeue
exhausted threads, decrement the current quantum; on exhaustion park the
current thread (cooldown read from the time-accounting TCB) and switch to
the next ready thread or idle; otherwise preempt when a strictly
higher-priority thread is queued. -/
def Scheduler.tick (s : Scheduler) : Except KernelError (Scheduler × Option Nat) :=
  match requeuePhaseA s.tcbs s.domains [] s.exhausted with
  | .error e => .error e
  | .ok (ex', domains') =>
    let time' := s.current.time - 1
    let s1 : Scheduler :=
      { s with
        exhausted := ex'
        domains := domains'
        current := { s.current with time := time' } }
    if time' = 0 then
      match s1.tcbs.get s1.current.timeThread with
      | none => .error .invalidThreadRef
      | some currentTcb =>
        let s2 := { s1 with exhausted :=
          ⟨currentTcb.cooldown, some s1.current.tcbRef, s1.current.loanedTcb⟩ :: s1.exhausted }
        let np := s2.pickNext 0
        match np.2.switchThread np.1 with
        | .error e => .error e
        | .ok (s4, r) => .ok (s4, some r)
    else
      match s1.tcbs.get s1.current.tcbRef with
      | none => .error .invalidThreadRef
      | some ct =>
        match s1.nextThread ct.priority with
        | none => .ok (s1, none)
        | some (next, s2) =>
          match s2.switchThread next with
          | .error e => .error e
          | .ok (s3, r) => .ok (s3, some r)

/-- Scheduler::wait, src/kernel/src/scheduler.rs lines 37-56: put the
current thread into Waiting with the given mask and buffers, pick the next
ready thread (idle as fallback), mark the caller as loaner on that entry
when loan is set, and switch. -/
def Scheduler.wait (s : Scheduler) (mask outBufAddr outBufLen recvRespPtr : Nat)
    (loan : Bool) : Except KernelError (Scheduler × Nat) :=
  match s.tcbs.get s.current.tcbRef with
  | none => .error .invalidThreadRef
  | some src =>
    let tcbs' := s.tcbs.setItem s.current.tcbRef
      { src with state := .waiting mask outBufAddr outBufLen recvRespPtr }
    let s1 : Scheduler := { s with tcbs := tcbs' }
    let np := s1.pickNext 0
    let next := if loan then { np.1 with loanedTcb := some np.2.current.tcbRef } else np.1
    np.2.switchThread next

/-- usize::MAX on the 64-bit host that runs the kernel test suite (the idle
thread's budget in src/kernel/src/tests.rs). -/
def usizeMax : Nat := 2 ^ 64 - 1

/-- The freshly built scheduler: empty slab and queues, and the initial
current-thread record ThreadTime { tcb_ref: ThreadRef(0), time: 20 } of
Kernel::new (src/kernel/src/lib.rs lines 70-93), with no loan. -/
def emptyScheduler : Scheduler :=
  { tcbs := Space.empty Tcb TCB_CAPACITY
    domains := List.replicate PRIORITY_COUNT []
    exhausted := []
    current := ⟨0, 20, none⟩ }

/-- The scheduler produced by fn test_kernel in src/kernel/src/tests.rs lines
3-28: spawn the idle thread Tcb::new(TaskRef(0), 0, 0, usize::MAX, 0, 0, 0,
List::new()) and run one tick. -/
def testKernelSched : Except KernelError Scheduler := do
  let (s, _) ← emptyScheduler.spawn (Tcb.new 0 0 0 usizeMax 0 0 0 [])
  let (s, _) ← s.tick
  pure s

/-- The scheduler at the start of test_simple_tick_schedule
(src/kernel/src/tests.rs lines 30-36): test_kernel plus thread A =
Tcb::new(TaskRef(1), 0, 7, 5, 6, 0, 0, []) and thread B =
Tcb::new(TaskRef(2), 0, 7, 3, 3, 0, 0, []). -/
def simpleTickSched : Except KernelError Scheduler := do
  let s ← testKernelSched
  let (s, _) ← s.spawn (Tcb.new 1 0 7 5 6 0 0 [])
  let (s, _) ← s.spawn (Tcb.new 2 0 7 3 3 0 0 [])
  pure s

/-- Run n ticks, recording for each tick the switch decision returned by
Scheduler::tick together with the thread that is current once the tick is
done. -/
def tickTrace : Nat → Scheduler → Except KernelError (Scheduler × List (Option Nat × Nat))
  | 0, s => .ok (s, [])
  | n + 1, s => do
    let (s', r) ← s.tick
    let (s'', rs) ← tickTrace n s'
    pure (s'', (r, s'.current.tcbRef) :: rs)

/-- Size in bytes of the abi::RecvResp response-header slot on the 64-bit
host (mem::size_of_val in translate_mut_task_ptr); the exact value only
feeds the range-containment check and no claim depends on it. -/
def recvRespSize : Nat := 24

/-- Size of a function pointer on the rv64 target (mem::size_of_val of the
entrypoint reference validated by spawn_thread). -/
def ptrSize : Nat := 8

/-- Response-header payload, abi::RecvRespInner (the current abi crate;
variants as used by src/kernel/src/tcb.rs lines 159-176). -/
inductive RecvRespInner where
  | copy (len : Nat)
  | page (addr len : Nat)
deriving DecidableEq, Repr

/-- Response header written to the receiver, abi::RecvResp: an optional
fresh cap-ref for an attached reply endpoint plus the payload
description. -/
structure RecvResp where
  cap : Option Nat
  inner : RecvRespInner
deriving DecidableEq, Repr

/-- Receive-request payload, src/kernel/src/tcb.rs lines 197-200 (enum
RecvReqInner): page transport or a caller out-buffer. -/
inductive RecvReqInner where
  | page
  | buf (outAddr outLen : Nat)
deriving DecidableEq, Repr

/-- A receive request, src/kernel/src/tcb.rs lines 192-196: mask, response
header pointer and payload request. -/
structure RecvReq where
  mask : Nat
  respPtr : Nat
  inner : RecvReqInner
deriving DecidableEq, Repr

/-- Outcome kind of Tcb::recv, src/kernel/src/tcb.rs lines 202-206 (enum
RecvRes), with NotFound carrying no data in the model (the request is kept
by the caller). -/
inductive RecvResKind where
  | page
  | copy
  | notFound
deriving DecidableEq, Repr

/-- The observable outcome of a receive: the updated receiver TCB, the
result, the bytes copied into the caller's out-buffer (address, data) and
the response header written (address, header). -/
structure RecvOutcome where
  tcb : Tcb
  result : Except KernelError RecvResKind
  outWrite : Option (Nat × List Nat)
  respWrite : Option (Nat × RecvResp)
deriving DecidableEq, Repr

/-- The message-queue cursor walk of Tcb::recv_inner
(src/kernel/src/tcb.rs lines 130-145): find the first message whose addr
masked with the request mask equals the mask; the result splits the queue
into the non-matching prefix, the matched message, and the suffix, so that
remove_current leaves prefix ++ suffix. -/
def findMsg (mask : Nat) : List IPCMsg → Option (List IPCMsg × IPCMsg × List IPCMsg)
  | [] => none
  | m :: rest =>
    if m.addr &&& mask == mask then some ([], m, rest)
    else (findMsg mask rest).map fun pr => (m :: pr.1, pr.2.1, pr.2.2)

/-- The tail of Tcb::recv_inner after the payload has been handled
(src/kernel/src/tcb.rs lines 179-188): install the reply endpoint, if any,
at the back of the receiver's capability list and put the new node's address
into the header's cap field, then validate the response-header pointer
(BadAccess on failure, after the mutations) and write the header. -/
def finishRecv (task : Task) (t : Tcb) (msg : IPCMsg) (freshCapAddr : Nat)
    (kind : RecvResKind) (outWrite : Option (Nat × List Nat)) (resp : RecvResp)
    (respPtr : Nat) : RecvOutcome :=
  let tr : Tcb × RecvResp :=
    match msg.replyEndpoint with
    | some reply =>
      let t' := t.addCap freshCapAddr (.endpoint reply)
      let capPtr := match t'.capabilities.getLast? with
        | some e => e.nodeAddr
        | none => 0
      (t', { resp with cap := some capPtr })
    | none => (t, resp)
  if task.validateBuf respPtr recvRespSize then
    ⟨tr.1, .ok kind, outWrite, some (respPtr, tr.2)⟩
  else
    ⟨tr.1, .error (.abi .badAccess), outWrite, none⟩

/-- Tcb::recv_inner, src/kernel/src/tcb.rs lines 124-189: search the inbound
FIFO for the first mask-matching message and remove it; for a byte-buffer
body require a buffer request (else ReturnTypeMismatch), validate the
out-buffer (BadAccess) and require its length to equal the body length
(ReturnTypeMismatch), then copy; for a page body write the page coordinates
into the header.  The message is removed from the queue before any of these
checks.  freshCapAddr is the heap address of the capability node allocated
when a reply endpoint is attached. -/
def Tcb.recvInner (t : Tcb) (task : Task) (req : RecvReq) (freshCapAddr : Nat) :
    RecvOutcome :=
  match findMsg req.mask t.reqQueue with
  | none => ⟨t, .ok .notFound, none, none⟩
  | some (before, msg, after) =>
    let t1 : Tcb := { t with reqQueue := before ++ after }
    match msg.body with
    | .buf data =>
      match req.inner with
      | .page => ⟨t1, .error (.abi .returnTypeMismatch), none, none⟩
      | .buf outAddr outLen =>
        if ¬ task.validateBuf outAddr outLen then
          ⟨t1, .error (.abi .badAccess), none, none⟩
        else if outLen ≠ data.length then
          ⟨t1, .error (.abi .returnTypeMismatch), none, none⟩
        else
          finishRecv task t1 msg freshCapAddr .copy (some (outAddr, data))
            ⟨none, .copy data.length⟩ req.respPtr
    | .page a l =>
      finishRecv task t1 msg freshCapAddr .page none ⟨none, .page a l⟩ req.respPtr

/-- Tcb::recv, src/kernel/src/tcb.rs lines 98-122: run recv_inner and record
the outcome in the saved syscall-return slot; an ABI error is written there
and then reported as Ok(Page); other kernel errors propagate; NotFound
leaves the slot untouched. -/
def Tcb.recv (t : Tcb) (task : Task) (req : RecvReq) (freshCapAddr : Nat) :
    RecvOutcome :=
  let o := t.recvInner task req freshCapAddr
  match o.result with
  | .ok .copy =>
    { o with tcb := { o.tcb with savedReturn := { SyscallReturn.new with typ := .copy } } }
  | .ok .page =>
    { o with tcb := { o.tcb with savedReturn := { SyscallReturn.new with typ := .page } } }
  | .error (.abi e) =>
    { o with
      tcb := { o.tcb with savedReturn := e.toReturn }
      result := .ok .page }
  | _ => o

/-- Write a TCB back through a mutable borrow of the scheduler's slab. -/
def Scheduler.setTcb (s : Scheduler) (r : Nat) (t : Tcb) : Scheduler :=
  { s with tcbs := s.tcbs.setItem r t }

/-- Kernel state: the scheduler, the static task table (≤ 5 entries,
src/kernel/src/lib.rs struct Kernel) and the port registry
(src/kernel/src/registry.rs, a map of up to 8 ports; the registry field of
the current Kernel is used by syscalls.rs). -/
structure Kernel where
  scheduler : Scheduler
  tasks : List Task
  registry : List (PortId × Endpoint)
deriving DecidableEq, Repr

/-- Kernel::send_inner, src/kernel/src/lib.rs lines 136-174: append the
message (addr from the endpoint, the optional reply endpoint, the body) at
the tail of the destination's inbound FIFO; if the destination is Waiting on
a mask that matches the endpoint address, mark it Ready, deliver immediately
through Tcb::recv, and append it to its priority's ready queue. -/
def Kernel.sendInner (k : Kernel) (endpoint : Endpoint) (body : IPCMsgBody)
    (replyEndpoint : Option Endpoint) (freshCapAddr : Nat) :
    Except KernelError Kernel :=
  match k.scheduler.getTcb endpoint.tcbRef with
  | .error e => .error e
  | .ok dest =>
    let msg : IPCMsg := ⟨endpoint.addr, replyEndpoint, body⟩
    let dest := { dest with reqQueue := dest.reqQueue ++ [msg] }
    match dest.state with
    | .waiting mask outAddr outLen respPtr =>
      if mask &&& endpoint.addr == endpoint.addr then
        let dest := { dest with state := .ready }
        match k.tasks.get? dest.task with
        | none => .error .invalidTaskRef
        | some task =>
          let o := dest.recv task ⟨mask, respPtr, .buf outAddr outLen⟩ freshCapAddr
          match o.result with
          | .error e => .error e
          | .ok _ =>
            let sched := k.scheduler.setTcb endpoint.tcbRef o.tcb
            match sched.addThread o.tcb.priority endpoint.tcbRef with
            | .error e => .error e
            | .ok sched' => .ok { k with scheduler := sched' }
      else
        .ok { k with scheduler := k.scheduler.setTcb endpoint.tcbRef dest }
    | _ => .ok { k with scheduler := k.scheduler.setTcb endpoint.tcbRef dest }

/-- Kernel::send, src/kernel/src/lib.rs lines 131-134: resolve the cap-ref
on the current thread to an Endpoint (consuming it when disposable) and
forward to send_inner without a reply endpoint. -/
def Kernel.send (k : Kernel) (dest : Nat) (body : IPCMsgBody) (freshCapAddr : Nat) :
    Except KernelError Kernel :=
  match k.scheduler.getTcb k.scheduler.current.tcbRef with
  | .error e => .error e
  | .ok src =>
    match src.endpoint dest with
    | .error e => .error e
    | .ok (endpoint, src') =>
      let k1 := { k with scheduler := k.scheduler.setTcb k.scheduler.current.tcbRef src' }
      k1.sendInner endpoint body none freshCapAddr

/-- Kernel::call, src/kernel/src/lib.rs lines 178-210, composed with the
current Scheduler::wait (src/kernel/src/scheduler.rs lines 37-56): resolve
the endpoint, attach a disposable reply endpoint targeting the caller at
address endpoint.addr OR 0x80000000, send, and block the caller on the reply
address.  The loan flag passed to Scheduler::wait is modelled from the spec
(the current Kernel::call is missing from src/; the spec states that a call
waits with transport loan = true so that the caller's quantum is loaned). -/
def Kernel.call (k : Kernel) (dest : Nat) (body : IPCMsgBody)
    (outBufAddr outBufLen respPtr freshCapAddr : Nat) :
    Except KernelError (Kernel × Nat) :=
  let srcRef := k.scheduler.current.tcbRef
  match k.scheduler.getTcb srcRef with
  | .error e => .error e
  | .ok src =>
    match src.endpoint dest with
    | .error e => .error e
    | .ok (endpoint, src') =>
      let k1 := { k with scheduler := k.scheduler.setTcb srcRef src' }
      let replyEndpoint : Endpoint := ⟨srcRef, endpoint.addr ||| 0x80000000, true⟩
      match k1.sendInner endpoint body (some replyEndpoint) freshCapAddr with
      | .error e => .error e
      | .ok k2 =>
        match k2.scheduler.wait (endpoint.addr ||| 0x80000000) outBufAddr outBufLen
            respPtr true with
        | .error e => .error e
        | .ok (sched, next) => .ok ({ k2 with scheduler := sched }, next)

/-- fn get_buf, src/kernel/src/syscalls.rs lines 399-418: translate the
(addr, len) pair against the caller task's region table, returning BadAccess
when it fails.  The declared bound N is a parameter of the source function
but is never consulted there (no BufferOverflow check). -/
def getBuf (N : Nat) (k : Kernel) (tcb : Tcb) (addr len : Nat) :
    Except KernelError (Nat × Nat) :=
  let _ := N
  match k.tasks.get? tcb.task with
  | none => .error .invalidTaskRef
  | some task =>
    if translateTaskPtrOk addr len task.regionTable then .ok (addr, len)
    else .error (.abi .badAccess)

/-- Kernel::get_syscall_buf, src/kernel/src/lib.rs lines 369-391: translate
the (addr, len) pair (BadAccess on failure) and reject slices longer than
the bound N with BufferOverflow. -/
def getSyscallBuf (N : Nat) (k : Kernel) (tcb : Tcb) (addr len : Nat) :
    Except KernelError (Nat × Nat) :=
  match k.tasks.get? tcb.task with
  | none => .error .invalidTaskRef
  | some task =>
    if ¬ translateTaskPtrOk addr len task.regionTable then .error (.abi .badAccess)
    else if N < len then .error (.abi .bufferOverflow)
    else .ok (addr, len)

/-- Registry::connect, src/kernel/src/registry.rs lines 22-27: look the port
up in the index, PortNotOpen when absent. -/
def registryConnect (reg : List (PortId × Endpoint)) (port : PortId) :
    Except AbiError Endpoint :=
  match reg.find? (fun pr => pr.1 == port) with
  | some pr => .ok pr.2
  | none => .error .portNotOpen

/-- CallReturn, src/kernel/src/syscalls.rs lines 420-432. -/
inductive CallReturn where
  | replace (nextThread : Nat)
  | switch (nextThread : Nat) (ret : SyscallReturn)
  | ret (ret : SyscallReturn)
deriving DecidableEq, Repr

/-- ConnectCall::exec, src/kernel/src/syscalls.rs lines 339-362: the cap-ref
must name a Connect capability (else the ABI InvalidCap error); its port is
looked up in the registry (PortNotOpen propagates before any mutation); on a
hit a new endpoint capability pointing at the listener is appended to the
caller's list and the new node's address is returned in the pointer field of
a Copy-typed return.  The kernel state is threaded so that error outcomes
expose the (unchanged) state. -/
def connectCall (k : Kernel) (capRef freshAddr : Nat) :
    Kernel × Except KernelError SyscallReturn :=
  match k.scheduler.getTcb k.scheduler.current.tcbRef with
  | .error e => (k, .error e)
  | .ok tcb =>
    match tcb.cap capRef with
    | .error e => (k, .error e)
    | .ok (.connect port) =>
      match registryConnect k.registry port with
      | .error e => (k, .error (.abi e))
      | .ok ep =>
        let tcb' := tcb.addCap freshAddr (.endpoint ep)
        let capRefOut := match tcb'.capabilities.getLast? with
          | some e => e.nodeAddr
          | none => 0
        ({ k with scheduler := k.scheduler.setTcb k.scheduler.current.tcbRef tcb' },
         .ok { SyscallReturn.new with typ := .copy, ptr := capRefOut })
    | .ok _ => (k, .error (.abi .invalidCap))

/-- RecvCall::exec, src/kernel/src/syscalls.rs lines 119-160: build the
receive request (page or buffer), run Tcb::recv on the current thread; a
NotFound outcome parks the thread through Scheduler::wait (loan = false) and
returns Replace, otherwise a Copy-typed Return is produced. -/
def recvCall (k : Kernel) (outAddr outLen mask respPtr : Nat) (isPage : Bool)
    (freshCapAddr : Nat) : Kernel × Except KernelError CallReturn :=
  let inner := if isPage then RecvReqInner.page else RecvReqInner.buf outAddr outLen
  let req : RecvReq := ⟨mask, respPtr, inner⟩
  match k.scheduler.getTcb k.scheduler.current.tcbRef with
  | .error e => (k, .error e)
  | .ok tcb =>
    match k.tasks.get? tcb.task with
    | none => (k, .error .invalidTaskRef)
    | some task =>
      let o := tcb.recv task req freshCapAddr
      let k1 := { k with scheduler := k.scheduler.setTcb k.scheduler.current.tcbRef o.tcb }
      match o.result with
      | .error e => (k1, .error e)
      | .ok .notFound =>
        match k1.scheduler.wait mask outAddr outLen respPtr false with
        | .error e => (k1, .error e)
        | .ok (sched, next) => ({ k1 with scheduler := sched }, .ok (.replace next))
      | .ok _ => (k1, .ok (.ret { SyscallReturn.new with typ := .copy }))

/-- Kernel::spawn_thread, src/kernel/src/lib.rs lines 95-115, adapted to the
current Tcb::new of src/kernel/src/tcb.rs (which also takes the capability
list and an epoch; the current spawn_thread itself is missing from src/, its
epoch argument is modelled from the spec's "epoch (incremented on
panic-restart)").  The entrypoint is validated against the task's regions
(InvalidEntrypoint), a stack is carved from the task's allocator
(StackExhausted), and the new TCB is handed to Scheduler::spawn.
arch::clear_mem touches no modelled state. -/
def Kernel.spawnThread (k : Kernel) (taskRef priority budget cooldown : Nat)
    (caps : List CapEntry) (epoch : Nat) : Except KernelError (Kernel × Nat) :=
  match k.tasks.get? taskRef with
  | none => .error .invalidTaskRef
  | some task =>
    if ¬ translateTaskPtrOk task.entrypoint ptrSize task.regionTable then
      .error .invalidEntrypoint
    else
      match task.allocStack with
      | none => .error .stackExhausted
      | some (sp, task') =>
        let tcb := Tcb.new taskRef sp priority budget cooldown task.entrypoint epoch caps
        match k.scheduler.spawn tcb with
        | .error e => .error e
        | .ok (sched, i) =>
          .ok ({ k with tasks := k.tasks.set taskRef task', scheduler := sched }, i)

/-- The TCB-table scan of PanikCall::exec (src/kernel/src/syscalls.rs lines
266-278): visit slots 0..16 in order; every TCB of the panicked task is
removed from the slab, and the one whose entrypoint equals the task
entrypoint supplies the parameters of the re-spawned thread (the last such
wins, as the loop overwrites). -/
def panikScanGo (taskRef entryAddr : Nat) :
    List Nat → Space Tcb → Option Tcb → Space Tcb × Option Tcb
  | [], tcbs, found => (tcbs, found)
  | i :: is, tcbs, found =>
    match tcbs.get i with
    | some tcb =>
      if tcb.task == taskRef then
        match tcbs.remove i with
        | some (tcbs', removed) =>
          if removed.entrypoint == entryAddr then
            panikScanGo taskRef entryAddr is tcbs' (some removed)
          else
            panikScanGo taskRef entryAddr is tcbs' found
        | none => panikScanGo taskRef entryAddr is tcbs found
      else
        panikScanGo taskRef entryAddr is tcbs found
    | none => panikScanGo taskRef entryAddr is tcbs found

/-- The retain predicate of PanikCall::exec's queue purge
(src/kernel/src/syscalls.rs lines 257-264): keep an entry iff its TCB is
still in the slab and belongs to a different task. -/
def panikKeep (tcbs : Space Tcb) (taskRef : Nat) : DomainEntry → Bool := fun e =>
  match tcbs.get e.tcbRef with
  | some t => ¬ (t.task == taskRef)
  | none => false

/-- PanikCall::exec, src/kernel/src/syscalls.rs lines 230-296: validate the
panic-message buffer through get_buf (an out-of-region message makes the
whole syscall fail with BadAccess before anything is reset), drop the
panicked task's threads from the scheduler queues, reset the task to Pending
with a fresh stack allocator, remove all of the task's TCBs from the slab
recovering the original thread's priority, budget, cooldown and capability
list (InitTCBNotFound when no TCB matches the task entrypoint), re-spawn at
the task entrypoint, and switch to the next ready thread or idle.  The
queue-removal step is modelled from the spec: the source filters
kern.scheduler.wait_queue, a field of the current Scheduler that is missing
from src/; the spec states that the panicked task's threads are removed from
the ready queues, modelled here by filtering every priority domain with the
source's retain predicate (entries whose TCB is gone are dropped too).  The
epoch of the re-spawned thread is the original's plus one (spec).  The
kernel state is threaded so that error outcomes expose the state reached so
far. -/
def panikCall (k : Kernel) (msgAddr msgLen : Nat) :
    Kernel × Except KernelError CallReturn :=
  match k.scheduler.getTcb k.scheduler.current.tcbRef with
  | .error e => (k, .error e)
  | .ok tcb =>
    let taskRef := tcb.task
    match getBuf 512 k tcb msgAddr msgLen with
    | .error e => (k, .error e)
    | .ok _ =>
      let k1 := { k with scheduler :=
        { k.scheduler with domains := (k.scheduler.domains.map
            (List.filter (panikKeep k.scheduler.tcbs taskRef))) } }
      match k1.tasks.get? taskRef with
      | none => (k1, .error .invalidTaskRef)
      | some task0 =>
        let task1 := (Task.resetStackPtr { task0 with state := .pending })
        let k2 := { k1 with tasks := k1.tasks.set taskRef task1 }
        let scan := panikScanGo taskRef task1.entrypoint (List.range TCB_CAPACITY)
          k2.scheduler.tcbs none
        let k3 := { k2 with scheduler := { k2.scheduler with tcbs := scan.1 } }
        match scan.2 with
        | none => (k3, .error .initTCBNotFound)
        | some orig =>
          match k3.spawnThread taskRef orig.priority orig.budget orig.cooldown
              orig.capabilities (orig.epoch + 1) with
          | .error e => (k3, .error e)
          | .ok (k4, _) =>
            let np := k4.scheduler.pickNext 0
            match np.2.switchThread np.1 with
            | .error e => ({ k4 with scheduler := np.2 }, .error e)
            | .ok (sched, next) =>
              ({ k4 with scheduler := sched }, .ok (.replace next))

/-- The kernel state PanikCall::exec reaches just before re-spawning, for a
caller of task taskRef whose task record is task0: ready queues filtered with
the retain predicate, the task reset to Pending with a fresh stack allocator,
and the task's TCBs scanned out of the slab. -/
def panikResetKernel (k : Kernel) (taskRef : Nat) (task0 : Task) : Kernel :=
  { k with
    scheduler := { k.scheduler with
      domains := (k.scheduler.domains.map
        (List.filter (panikKeep k.scheduler.tcbs taskRef)))
      tcbs := (panikScanGo taskRef
        (Task.resetStackPtr { task0 with state := TaskState.pending }).entrypoint
        (List.range TCB_CAPACITY) k.scheduler.tcbs none).1 }
    tasks := (k.tasks.set taskRef
      (Task.resetStackPtr { task0 with state := TaskState.pending })) }

/-!
Concrete states used by counterexamples, code-bug evaluations and witnesses.
-/

/-- A region attribute set with read and write (the default task regions of
TaskDesc::region_table carry Exec | Write | Read). -/
def attrRWX : RegionAttr := ⟨true, true, true, false, false⟩

/-- A read-only attribute set (read without write). -/
def attrRO : RegionAttr := ⟨false, true, false, false, false⟩

/-- A write-only attribute set (write without read). -/
def attrWO : RegionAttr := ⟨true, false, false, false, false⟩

/-- A task with a single large read/write/exec region, used by the concrete
scenarios. -/
def taskBig : Task :=
  { regionTable := [⟨0, 1000000, attrRWX⟩]
    stackSize := 100
    initialStackStart := 0
    initialStackEnd := 200
    availableStackPtr := [(0, 200)]
    entrypoint := 64
    secure := false
    state := .started }

/-- A task whose region table is empty: none of its pointers validate. -/
def taskNoRegions : Task :=
  { taskBig with regionTable := [] }

/-- A TCB slab holding the given threads in slots 0, 1, 2, ... with the
default free list (as produced by consecutive Space::push calls on
Space::default). -/
def spaceOfTcbs (ts : List Tcb) : Space Tcb :=
  { items := ts.map some ++ List.replicate (TCB_CAPACITY - ts.length) none
    freeList := (List.range TCB_CAPACITY).map fun i => TCB_CAPACITY - (i + 1)
    len := ts.length }

/-- The scheduler used by the C1 counterexample: idle plus the two
priority-7 threads of test_simple_tick_schedule, with the exhausted list
holding thread 1 one tick from expiry in front of thread 2 with five ticks
of cooldown left, idle current with plenty of time. -/
def cexSchedC1 : Scheduler :=
  { tcbs := spaceOfTcbs [Tcb.new 0 0 0 usizeMax 0 0 0 [],
                         Tcb.new 1 0 7 5 6 0 0 [],
                         Tcb.new 2 0 7 3 3 0 0 []]
    domains := [[DomainEntry.new 0 none], [], [], [], [], [], [], []]
    exhausted := [⟨1, some 1, none⟩, ⟨5, some 2, none⟩]
    current := ⟨0, 10, none⟩ }

/-- The scheduler used by the C6 counterexample: the incoming entry names
thread 1 (rem_time 2, budget 9) but carries a loan from thread 2 (rem_time
7, budget 4). -/
def cexSchedC6 : Scheduler :=
  { tcbs := spaceOfTcbs [Tcb.new 0 0 0 usizeMax 0 0 0 [],
                         { Tcb.new 1 0 7 9 6 0 0 [] with remTime := 2 },
                         { Tcb.new 2 0 7 4 3 0 0 [] with remTime := 7 }]
    domains := List.replicate PRIORITY_COUNT []
    exhausted := []
    current := ⟨0, 5, none⟩ }

/-- A TCB holding a single disposable endpoint capability at node address
100, for the C5 scenario. -/
def tcbC5 : Tcb :=
  Tcb.new 1 0 7 5 6 64 0 [⟨100, .endpoint ⟨2, 7, true⟩⟩]

/-- The kernel used to evaluate the buffer-bound behaviour (C7): one task
with a large readable region, the caller thread in slot 0. -/
def kernelC7 : Kernel :=
  { scheduler :=
      { tcbs := spaceOfTcbs [Tcb.new 0 0 7 5 6 64 0 []]
        domains := List.replicate PRIORITY_COUNT []
        exhausted := []
        current := ⟨0, 10, none⟩ }
    tasks := [taskBig]
    registry := [] }

/-- The kernel used by the C3/C4/C10 witnesses: idle (thread 0, task 0),
a caller (thread 1, task 1) holding a non-disposable endpoint capability to
thread 2 at address 5 (node address 300), and a callee (thread 2, task 2)
that is Ready with one queued message at address 5 carrying body [1, 2, 3]
and no reply endpoint. -/
def witnessKernel : Kernel :=
  { scheduler :=
      { tcbs := spaceOfTcbs
          [Tcb.new 0 0 0 usizeMax 0 0 0 [],
           Tcb.new 1 0 7 5 6 64 0 [⟨300, .endpoint ⟨2, 5, false⟩⟩],
           { Tcb.new 2 0 6 3 3 64 0 [] with
             reqQueue := [⟨5, none, .buf [1, 2, 3]⟩] }]
        domains := [[DomainEntry.new 0 none], [], [], [], [], [], [], []]
        exhausted := []
        current := ⟨1, 10, none⟩ }
    tasks := [taskBig, taskBig, taskBig]
    registry := [] }

/-- The witness kernel viewed from the receiver: current thread is 2, the
thread with the queued message. -/
def kernelC3 : Kernel :=
  { witnessKernel with
    scheduler := { witnessKernel.scheduler with current := ⟨2, 10, none⟩ } }

/-- The receiver TCB of kernelC3 (slot 2). -/
def recvTcbC3 : Tcb :=
  { Tcb.new 2 0 6 3 3 64 0 [] with reqQueue := [⟨5, none, .buf [1, 2, 3]⟩] }

/-- The scheduler produced when the kernelC3 receiver waits on mask 6 (no
queued message matches): the receiver is parked Waiting and the scheduler
fell back to idle. -/
def c3WaitSched : Scheduler :=
  { kernelC3.scheduler with
    tcbs := kernelC3.scheduler.tcbs.setItem 2
      { recvTcbC3 with state := .waiting 6 1000 3 2000, remTime := 10 }
    current := ⟨0, usizeMax, none⟩ }

/-- A 16-byte port identifier used by the C9 witness. -/
def portW : PortId := [0, 1, 2, 3, 4, 5, 6, 7, 8, 9, 10, 11, 12, 13, 14, 15]

/-- The caller TCB of the C9 witness kernel (slot 1): one Connect capability
for portW at node address 400. -/
def tcbC9 : Tcb := Tcb.new 1 0 7 5 6 64 0 [⟨400, .connect portW⟩]

/-- tcbC9 after Connect installed the endpoint capability (node 777)
pointing at the portW listener. -/
def tcbC9After : Tcb := tcbC9.addCap 777 (.endpoint ⟨2, 0, false⟩)

/-- The kernel used by the C9 witness: the current thread holds a Connect
capability for portW (node address 400); the registry maps portW to a
listener endpoint at thread 2. -/
def kernelC9 : Kernel :=
  { witnessKernel with
    scheduler :=
      { witnessKernel.scheduler with
        tcbs := spaceOfTcbs
          [Tcb.new 0 0 0 usizeMax 0 0 0 [],
           Tcb.new 1 0 7 5 6 64 0 [⟨400, .connect portW⟩],
           Tcb.new 2 0 6 3 3 64 0 []] }
    registry := [(portW, ⟨2, 0, false⟩)] }

/-- The kernel whose current thread holds a Connect capability for a port
that is absent from the registry (C9 miss case). -/
def kernelC9Miss : Kernel :=
  { kernelC9 with registry := [] }

/-- The kernel used by the C8 scenarios: idle (thread 0, task 0) and a
panicking thread (thread 1, task 1, entrypoint 64 = task entrypoint,
priority 7, budget 5, cooldown 6, one Listen capability), current thread 1.
Task 1's allocator has already carved one stack. -/
def kernelC8 : Kernel :=
  { scheduler :=
      { tcbs := spaceOfTcbs
          [Tcb.new 0 0 0 usizeMax 0 0 0 [],
           { Tcb.new 1 100 7 5 6 64 0 [⟨500, .listen portW⟩] with
             reqQueue := [⟨9, none, .buf [7]⟩] }]
        domains := [[DomainEntry.new 0 none], [], [], [], [], [], [],
                    [DomainEntry.new 1 none]]
        exhausted := []
        current := ⟨1, 10, none⟩ }
    tasks := [taskBig, { taskBig with availableStackPtr := [(100, 200)] }]
    registry := [] }

/-- The C8 counterexample kernel: as kernelC8 but task 1 has no regions, so
the panic-message buffer of the Panik syscall cannot validate. -/
def kernelC8Bad : Kernel :=
  { kernelC8 with
    tasks := [taskBig, { taskNoRegions with availableStackPtr := [(100, 200)] }] }

/-- The panicking thread of kernelC8 (slot 1): the task-1 thread at the task
entrypoint with one queued inbound message. -/
def c8Tcb : Tcb :=
  { Tcb.new 1 100 7 5 6 64 0 [⟨500, .listen portW⟩] with
    reqQueue := [⟨9, none, .buf [7]⟩] }

/-- Task 1 of kernelC8 as stored in its task table. -/
def c8Task0 : Task := { taskBig with availableStackPtr := [(100, 200)] }

/-- The kernel and slot index produced when the reset kernelC8 re-spawns the
panicking thread's replacement. -/
def c8Spawn : Kernel × Nat :=
  match (panikResetKernel kernelC8 1 c8Task0).spawnThread 1 c8Tcb.priority
      c8Tcb.budget c8Tcb.cooldown c8Tcb.capabilities (c8Tcb.epoch + 1) with
  | .ok p => p
  | .error _ => (kernelC8, 0)

/-- The scheduler and outgoing thread after the post-respawn context
switch of the kernelC8 panic. -/
def c8Switch : Scheduler × Nat :=
  match (c8Spawn.1.scheduler.pickNext 0).2.switchThread
      (c8Spawn.1.scheduler.pickNext 0).1 with
  | .ok p => p
  | .error _ => (c8Spawn.1.scheduler, 0)

/-!
Shared helper lemmas.
-/

theorem Space.get_eq_some_iff {α : Type} (s : Space α) (i : Nat) (x : α) :
    s.get i = some x ↔ s.items[i]? = some (some x) := by
  rw [Space.get, List.getD_eq_getElem?_getD]
  cases h : s.items[i]? with
  | none => simp
  | some o => cases o <;> simp

theorem Space.lt_length_of_get {α : Type} {s : Space α} {i : Nat} {x : α}
    (h : s.get i = some x) : i < s.items.length := by
  rw [Space.get_eq_some_iff] at h
  by_contra hlt
  rw [List.getElem?_eq_none (Nat.le_of_not_lt hlt)] at h
  exact Option.noConfusion h

theorem Space.get_setItem_self {α : Type} {s : Space α} {i : Nat} {x : α}
    (h : s.get i = some x) (v : α) : (s.setItem i v).get i = some v := by
  have hi := Space.lt_length_of_get h
  rw [Space.get_eq_some_iff]
  simpa [Space.setItem] using List.getElem?_set_self hi

theorem Space.get_setItem_ne {α : Type} (s : Space α) {i j : Nat} (h : i ≠ j) (v : α) :
    (s.setItem i v).get j = s.get j := by
  simp [Space.setItem, Space.get, List.getD_eq_getElem?_getD, List.getElem?_set_ne h]

theorem Space.get_remove_self {α : Type} {s s' : Space α} {i : Nat} {x : α}
    (h : s.remove i = some (s', x)) : s'.get i = none := by
  unfold Space.remove at h
  cases hg : s.items.getD i none with
  | none => rw [hg] at h; exact Option.noConfusion h
  | some item =>
    rw [hg] at h
    injection h with h'
    have hi : i < s.items.length := by
      have : s.get i = some item := by simpa [Space.get] using hg
      exact Space.lt_length_of_get this
    cases h'
    simp [Space.get, List.getD_eq_getElem?_getD, List.getElem?_set_self hi]

theorem Space.get_remove_ne {α : Type} {s s' : Space α} {i : Nat} {x : α}
    (h : s.remove i = some (s', x)) {j : Nat} (hne : i ≠ j) : s'.get j = s.get j := by
  unfold Space.remove at h
  cases hg : s.items.getD i none with
  | none => rw [hg] at h; exact Option.noConfusion h
  | some item =>
    rw [hg] at h
    injection h with h'
    cases h'
    simp [Space.get, List.getD_eq_getElem?_getD, List.getElem?_set_ne hne]

theorem Space.remove_of_get {α : Type} {s : Space α} {i : Nat} {x : α}
    (h : s.get i = some x) :
    s.remove i = some ({ items := s.items.set i none,
                         freeList := s.freeList.set (s.items.length - s.len) i,
                         len := s.len - 1 }, x) := by
  have hg : s.items.getD i none = some x := by simpa [Space.get] using h
  unfold Space.remove
  rw [hg]

theorem popDomains_eq_none (domains : List (List DomainEntry)) :
    ∀ ps : List Nat, popDomains domains ps = none ↔ ∀ p ∈ ps, domains.getD p [] = []
  | [] => by simp [popDomains]
  | p :: ps => by
    cases h : domains.getD p [] with
    | nil =>
      simp only [popDomains, h, List.mem_cons]
      rw [popDomains_eq_none domains ps]
      constructor
      · rintro hall q (rfl | hq)
        · exact h
        · exact hall q hq
      · intro hall q hq
        exact hall q (Or.inr hq)
    | cons e rest =>
      simp only [popDomains, h, List.mem_cons]
      constructor
      · intro hc; exact Option.noConfusion hc
      · intro hall
        have := hall p (Or.inl rfl)
        rw [h] at this
        exact List.noConfusion this

theorem popDomains_front (domains : List (List DomainEntry)) :
    ∀ (ps : List Nat) (p : Nat) (e : DomainEntry) (rest : List DomainEntry),
    List.Pairwise (fun a b => a > b) ps → p ∈ ps →
    (∀ q ∈ ps, p < q → domains.getD q [] = []) →
    domains.getD p [] = e :: rest →
    popDomains domains ps =
      some (DomainEntry.new e.tcbRef e.loanedTcb, domains.set p rest)
  | [], p, e, rest => by intro _ hmem; exact absurd hmem (List.not_mem_nil p)
  | q :: ps, p, e, rest => by
    intro hpair hmem hempty hfront
    rcases List.mem_cons.mp hmem with rfl | hmem'
    · simp only [popDomains, hfront]
    · have hqp : p < q := (List.pairwise_cons.mp hpair).1 p hmem'
      have hq : domains.getD q [] = [] := hempty q (List.mem_cons_self q ps) hqp
      simp only [popDomains, hq]
      exact popDomains_front domains ps p e rest (List.pairwise_cons.mp hpair).2 hmem'
        (fun r hr hpr => hempty r (List.mem_cons_of_mem q hr) hpr) hfront

theorem mem_priosAbove (p cp : Nat) : p ∈ priosAbove cp ↔ cp < p ∧ p ≤ 7 := by
  simp only [priosAbove, List.mem_filter, decide_eq_true_eq]
  constructor
  · rintro ⟨hmem, hlt⟩
    refine ⟨hlt, ?_⟩
    simp only [List.mem_cons, List.not_mem_nil, or_false] at hmem
    omega
  · rintro ⟨hlt, hle⟩
    refine ⟨?_, hlt⟩
    simp only [List.mem_cons, List.not_mem_nil, or_false]
    omega

theorem pairwise_priosAbove (cp : Nat) :
    List.Pairwise (fun a b => a > b) (priosAbove cp) :=
  List.Pairwise.filter _ (by decide)

theorem pickNext_tcbs (s : Scheduler) (cp : Nat) :
    (s.pickNext cp).2.tcbs = s.tcbs ∧ (s.pickNext cp).2.current = s.current ∧
    (s.pickNext cp).2.exhausted = s.exhausted := by
  unfold Scheduler.pickNext Scheduler.nextThread
  cases h : popDomains s.domains (priosAbove cp) <;> simp [h]

theorem switchThread_parts {s : Scheduler} {next : DomainEntry} {s' : Scheduler} {r : Nat}
    (h : s.switchThread next = .ok (s', r)) :
    ∃ saveTcb timeTcb,
      s.tcbs.get (s.current.loanedTcb.getD s.current.tcbRef) = some saveTcb ∧
      (s.tcbs.setItem (s.current.loanedTcb.getD s.current.tcbRef)
          { saveTcb with remTime := s.current.time }).get
          (next.loanedTcb.getD next.tcbRef) = some timeTcb ∧
      r = next.tcbRef ∧
      s'.tcbs = s.tcbs.setItem (s.current.loanedTcb.getD s.current.tcbRef)
          { saveTcb with remTime := s.current.time } ∧
      s'.current = ⟨next.tcbRef,
        if 0 < timeTcb.remTime then timeTcb.remTime else timeTcb.budget,
        next.loanedTcb⟩ ∧
      s'.domains = s.domains ∧ s'.exhausted = s.exhausted := by
  simp only [Scheduler.switchThread] at h
  split at h
  · exact Except.noConfusion h
  next saveTcb h1 =>
    split at h
    · exact Except.noConfusion h
    next timeTcb h2 =>
      injection h with h'
      injection h' with ha hb
      exact ⟨saveTcb, timeTcb, h1, h2, hb.symm, by rw [← ha], by rw [← ha], by rw [← ha],
        by rw [← ha]⟩

theorem switchThread_state {s : Scheduler} {next : DomainEntry} {s' : Scheduler} {r : Nat}
    (h : s.switchThread next = .ok (s', r)) (j : Nat) :
    (s'.tcbs.get j).map Tcb.state = (s.tcbs.get j).map Tcb.state := by
  obtain ⟨saveTcb, timeTcb, h1, _, _, htcbs, _⟩ := switchThread_parts h
  rw [htcbs]
  by_cases hj : s.current.loanedTcb.getD s.current.tcbRef = j
  · subst hj
    rw [Space.get_setItem_self h1, h1]
    rfl
  · rw [Space.get_setItem_ne _ hj]

theorem wait_parts {s : Scheduler} {mask oa ol rp : Nat} {loan : Bool} {s' : Scheduler}
    {r : Nat} {src : Tcb}
    (hsrc : s.tcbs.get s.current.tcbRef = some src)
    (h : s.wait mask oa ol rp loan = .ok (s', r)) :
    (s'.tcbs.get s.current.tcbRef).map Tcb.state = some (.waiting mask oa ol rp) ∧
    (loan = true → s'.current.loanedTcb = some s.current.tcbRef) := by
  simp only [Scheduler.wait, hsrc] at h
  constructor
  · have hstate := switchThread_state h s.current.tcbRef
    rw [(pickNext_tcbs _ 0).1] at hstate
    rw [hstate]
    rw [Space.get_setItem_self hsrc]
    rfl
  · intro hloan
    subst hloan
    obtain ⟨_, _, _, _, _, _, hcur, _, _⟩ := switchThread_parts h
    rw [hcur]
    simp [(pickNext_tcbs _ 0).2.1]

theorem find?_eraseP_of_countP_le_one {α : Type} (p : α → Bool) :
    ∀ l : List α, l.countP p ≤ 1 → (l.eraseP p).find? p = none
  | [] => by intro _; rfl
  | x :: t => by
    intro h
    by_cases hp : p x = true
    · rw [List.eraseP_cons, hp]
      simp only [cond_true]
      rw [List.countP_cons, hp, if_pos rfl] at h
      have h0 : t.countP p = 0 := by omega
      exact List.find?_eq_none.mpr fun y hy => by
        have := List.countP_eq_zero.mp h0 y hy
        simpa using this
    · rw [List.eraseP_cons]
      have hp' : p x = false := by simpa using hp
      rw [hp']
      simp only [cond_false, List.find?_cons, hp']
      rw [List.countP_cons, hp', if_neg (by simp)] at h
      exact find?_eraseP_of_countP_le_one p t (by omega)

theorem findMsg_eq_none (mask : Nat) :
    ∀ q : List IPCMsg, findMsg mask q = none ↔
      ∀ x ∈ q, ¬((x.addr &&& mask == mask) = true)
  | [] => by simp [findMsg]
  | m :: rest => by
    by_cases hm : (m.addr &&& mask == mask) = true
    · rw [findMsg, if_pos hm]
      constructor
      · intro h; exact Option.noConfusion h
      · intro h; exact absurd hm (h m (List.mem_cons_self m rest))
    · rw [findMsg, if_neg hm]
      rw [Option.map_eq_none']
      rw [findMsg_eq_none mask rest]
      constructor
      · intro h y hy
        rcases List.mem_cons.mp hy with rfl | hy'
        · exact hm
        · exact h y hy'
      · intro h y hy
        exact h y (List.mem_cons_of_mem m hy)

theorem findMsg_decomp (mask : Nat) :
    ∀ (q b : List IPCMsg) (m : IPCMsg) (a : List IPCMsg),
      findMsg mask q = some (b, m, a) →
      q = b ++ m :: a ∧ (m.addr &&& mask == mask) = true ∧
      ∀ x ∈ b, ¬((x.addr &&& mask == mask) = true)
  | [], b, m, a => by intro h; exact Option.noConfusion h
  | y :: rest, b, m, a => by
    intro h
    by_cases hy : (y.addr &&& mask == mask) = true
    · rw [findMsg, if_pos hy] at h
      injection h with h'
      simp only [Prod.mk.injEq] at h'
      obtain ⟨rfl, rfl, rfl⟩ := h'
      exact ⟨rfl, hy, by simp⟩
    · rw [findMsg, if_neg hy] at h
      cases hr : findMsg mask rest with
      | none => rw [hr] at h; exact Option.noConfusion h
      | some pr =>
        rcases pr with ⟨b', m', a'⟩
        rw [hr] at h
        simp only [Option.map_some'] at h
        injection h with h'
        simp only [Prod.mk.injEq] at h'
        obtain ⟨rfl, rfl, rfl⟩ := h'
        obtain ⟨hq, hmm, hb⟩ := findMsg_decomp mask rest b' m' a' hr
        refine ⟨by rw [hq]; rfl, hmm, ?_⟩
        intro x hx
        rcases List.mem_cons.mp hx with rfl | hx'
        · exact hy
        · exact hb x hx'

theorem finishRecv_queue (task : Task) (t : Tcb) (msg : IPCMsg) (fresh : Nat)
    (kind : RecvResKind) (ow : Option (Nat × List Nat)) (resp : RecvResp) (rp : Nat) :
    (finishRecv task t msg fresh kind ow resp rp).tcb.reqQueue = t.reqQueue := by
  cases hre : msg.replyEndpoint <;> simp only [finishRecv, hre] <;> split <;> rfl

theorem recvInner_queue {t : Tcb} {task : Task} {req : RecvReq} {fresh : Nat}
    {b : List IPCMsg} {m : IPCMsg} {a : List IPCMsg}
    (h : findMsg req.mask t.reqQueue = some (b, m, a)) :
    (t.recvInner task req fresh).tcb.reqQueue = b ++ a := by
  simp only [Tcb.recvInner, h]
  cases hb : m.body with
  | page pa pl => simp only [hb, finishRecv_queue]
  | buf data =>
    cases hi : req.inner with
    | page => simp only [hb, hi]
    | buf oa ol =>
      simp only [hb, hi]
      by_cases hv : task.validateBuf oa ol = true
      · rw [if_neg (by simp [hv])]
        by_cases hlen : ol = data.length
        · rw [if_neg (by simp [hlen]), finishRecv_queue]
        · rw [if_pos hlen]
      · rw [if_pos (by simp [hv])]

theorem switchThread_ok (s : Scheduler) (next : DomainEntry) (saveTcb timeTcb : Tcb)
    (h1 : s.tcbs.get (s.current.loanedTcb.getD s.current.tcbRef) = some saveTcb)
    (h2 : (s.tcbs.setItem (s.current.loanedTcb.getD s.current.tcbRef)
        { saveTcb with remTime := s.current.time }).get
        (next.loanedTcb.getD next.tcbRef) = some timeTcb) :
    s.switchThread next = .ok
      ({ s with
         tcbs := s.tcbs.setItem (s.current.loanedTcb.getD s.current.tcbRef)
           { saveTcb with remTime := s.current.time }
         current := ⟨next.tcbRef,
           if 0 < timeTcb.remTime then timeTcb.remTime else timeTcb.budget,
           next.loanedTcb⟩ }, next.tcbRef) := by
  simp only [Scheduler.switchThread, h1, h2]

theorem wait_ok (s : Scheduler) (mask oa ol rp : Nat) (src : Tcb)
    (hsrc : s.tcbs.get s.current.tcbRef = some src)
    (hl : s.current.loanedTcb = none) :
    ∃ s' r, s.wait mask oa ol rp true = .ok (s', r) ∧
      (s'.tcbs.get s.current.tcbRef).map Tcb.state =
        some (.waiting mask oa ol rp) ∧
      s'.current.loanedTcb = some s.current.tcbRef ∧
      s'.current.tcbRef = r ∧
      (∀ j, j ≠ s.current.tcbRef → s'.tcbs.get j = s.tcbs.get j) := by
  have key : ∀ s1 : Scheduler,
      s1.tcbs = s.tcbs.setItem s.current.tcbRef
        { src with state := .waiting mask oa ol rp } →
      s1.current = s.current →
      ∃ s' r, ((s1.pickNext 0).2.switchThread
        { tcbRef := (s1.pickNext 0).1.tcbRef,
          loanedTcb := some (s1.pickNext 0).2.current.tcbRef }) = .ok (s', r) ∧
      (s'.tcbs.get s.current.tcbRef).map Tcb.state =
        some (.waiting mask oa ol rp) ∧
      s'.current.loanedTcb = some s.current.tcbRef ∧
      s'.current.tcbRef = r ∧
      (∀ j, j ≠ s.current.tcbRef → s'.tcbs.get j = s.tcbs.get j) := by
    intro s1 ht hc
    rcases hq : s1.pickNext 0 with ⟨ne, s2⟩
    have h2t : s2.tcbs = s1.tcbs := by
      have := (pickNext_tcbs s1 0).1
      rw [hq] at this
      exact this
    have h2c : s2.current = s1.current := by
      have := (pickNext_tcbs s1 0).2.1
      rw [hq] at this
      exact this
    have hwsrc : s2.tcbs.get s.current.tcbRef =
        some { src with state := .waiting mask oa ol rp } := by
      rw [h2t, ht]
      exact Space.get_setItem_self hsrc _
    have hsave : s2.tcbs.get (s2.current.loanedTcb.getD s2.current.tcbRef) =
        some { src with state := .waiting mask oa ol rp } := by
      rw [h2c, hc, hl]
      exact hwsrc
    have htime : (s2.tcbs.setItem (s2.current.loanedTcb.getD s2.current.tcbRef)
        { src with state := .waiting mask oa ol rp, remTime := s2.current.time }).get
        (((⟨ne.tcbRef, some s2.current.tcbRef⟩ : DomainEntry)).loanedTcb.getD
          (⟨ne.tcbRef, some s2.current.tcbRef⟩ : DomainEntry).tcbRef) =
        some { src with state := .waiting mask oa ol rp, remTime := s2.current.time } := by
      show (s2.tcbs.setItem (s2.current.loanedTcb.getD s2.current.tcbRef) _).get
        s2.current.tcbRef = _
      rw [h2c, hc, hl]
      exact Space.get_setItem_self hwsrc _
    refine ⟨_, ne.tcbRef,
      switchThread_ok s2 ⟨ne.tcbRef, some s2.current.tcbRef⟩ _ _ hsave htime, ?_, ?_, rfl, ?_⟩
    · show ((s2.tcbs.setItem (s2.current.loanedTcb.getD s2.current.tcbRef) _).get
        s.current.tcbRef).map Tcb.state = _
      rw [h2c, hc, hl]
      simp only [Option.getD_none]
      rw [Space.get_setItem_self hwsrc]
      rfl
    · show some s2.current.tcbRef = some s.current.tcbRef
      rw [h2c, hc]
    · intro j hj
      show (s2.tcbs.setItem (s2.current.loanedTcb.getD s2.current.tcbRef) _).get j =
        s.tcbs.get j
      rw [h2c, hc, hl]
      simp only [Option.getD_none]
      rw [Space.get_setItem_ne _ fun he => hj he.symm]
      rw [h2t, ht]
      rw [Space.get_setItem_ne _ fun he => hj he.symm]
  simp only [Scheduler.wait, hsrc, if_true]
  exact key _ rfl rfl

theorem getTcb_some {s : Scheduler} {r : Nat} {t : Tcb}
    (h : s.getTcb r = .ok t) : s.tcbs.get r = some t := by
  unfold Scheduler.getTcb at h
  cases hg : s.tcbs.get r with
  | none => rw [hg] at h; exact Except.noConfusion h
  | some t' => rw [hg] at h; injection h with h'; rw [h']

theorem sendInner_not_waiting {k : Kernel} {ep : Endpoint} {body : IPCMsgBody}
    {re : Option Endpoint} {fresh : Nat} {callee : Tcb}
    (hg : k.scheduler.getTcb ep.tcbRef = .ok callee)
    (hs : callee.state = .ready) :
    k.sendInner ep body re fresh = .ok { k with scheduler :=
      (k.scheduler.setTcb ep.tcbRef
        { callee with reqQueue := callee.reqQueue ++ [⟨ep.addr, re, body⟩] }) } := by
  simp only [Kernel.sendInner, hg, hs]

theorem Space.get_none_of_le {α : Type} (s : Space α) {i : Nat}
    (h : s.items.length ≤ i) : s.get i = none := by
  rw [Space.get, List.getD_eq_getElem?_getD, List.getElem?_eq_none h]
  rfl

theorem panikScanGo_mono (taskRef entryAddr : Nat) :
    ∀ (is : List Nat) (tcbs : Space Tcb) (found : Option Tcb) (i : Nat) (t : Tcb),
    (panikScanGo taskRef entryAddr is tcbs found).1.get i = some t →
    tcbs.get i = some t := by
  intro is
  induction is with
  | nil => intro tcbs found i t h; exact h
  | cons j js ih =>
    intro tcbs found i t h
    simp only [panikScanGo] at h
    cases hg : tcbs.get j with
    | none => simp only [hg] at h; exact ih tcbs found i t h
    | some tcb =>
      simp only [hg] at h
      cases htask : (tcb.task == taskRef) with
      | false =>
        rw [htask] at h
        simp only [Bool.false_eq_true, if_false] at h
        exact ih tcbs found i t h
      | true =>
        rw [htask] at h
        simp only [reduceIte, Space.remove_of_get hg] at h
        by_cases hij : j = i
        · subst hij
          cases hee : (tcb.entrypoint == entryAddr) with
          | true =>
            rw [hee] at h
            simp only [reduceIte] at h
            have h2 := ih _ _ j t h
            rw [Space.get_remove_self (Space.remove_of_get hg)] at h2
            exact Option.noConfusion h2
          | false =>
            rw [hee] at h
            simp only [Bool.false_eq_true, if_false] at h
            have h2 := ih _ _ j t h
            rw [Space.get_remove_self (Space.remove_of_get hg)] at h2
            exact Option.noConfusion h2
        · cases hee : (tcb.entrypoint == entryAddr) with
          | true =>
            rw [hee] at h
            simp only [reduceIte] at h
            have h2 := ih _ _ i t h
            rwa [Space.get_remove_ne (Space.remove_of_get hg) hij] at h2
          | false =>
            rw [hee] at h
            simp only [Bool.false_eq_true, if_false] at h
            have h2 := ih _ _ i t h
            rwa [Space.get_remove_ne (Space.remove_of_get hg) hij] at h2

theorem panikScanGo_purge (taskRef entryAddr : Nat) :
    ∀ (is : List Nat) (tcbs : Space Tcb) (found : Option Tcb) (i : Nat) (t : Tcb),
    i ∈ is → (panikScanGo taskRef entryAddr is tcbs found).1.get i = some t →
    ¬ t.task = taskRef := by
  intro is
  induction is with
  | nil => intro tcbs found i t hmem _; exact absurd hmem (List.not_mem_nil i)
  | cons j js ih =>
    intro tcbs found i t hmem h
    simp only [panikScanGo] at h
    rcases List.mem_cons.mp hmem with rfl | hmem'
    · cases hg : tcbs.get i with
      | none =>
        simp only [hg] at h
        have h2 := panikScanGo_mono taskRef entryAddr js tcbs found i t h
        rw [hg] at h2
        exact Option.noConfusion h2
      | some tcb =>
        simp only [hg] at h
        cases htask : (tcb.task == taskRef) with
        | false =>
          rw [htask] at h
          simp only [Bool.false_eq_true, if_false] at h
          have h2 := panikScanGo_mono taskRef entryAddr js tcbs found i t h
          rw [hg] at h2
          injection h2 with h3
          subst h3
          intro hc
          rw [hc] at htask
          simp at htask
        | true =>
          rw [htask] at h
          simp only [reduceIte, Space.remove_of_get hg] at h
          cases hee : (tcb.entrypoint == entryAddr) with
          | true =>
            rw [hee] at h
            simp only [reduceIte] at h
            have h2 := panikScanGo_mono taskRef entryAddr js _ _ i t h
            rw [Space.get_remove_self (Space.remove_of_get hg)] at h2
            exact Option.noConfusion h2
          | false =>
            rw [hee] at h
            simp only [Bool.false_eq_true, if_false] at h
            have h2 := panikScanGo_mono taskRef entryAddr js _ _ i t h
            rw [Space.get_remove_self (Space.remove_of_get hg)] at h2
            exact Option.noConfusion h2
    · cases hg : tcbs.get j with
      | none => simp only [hg] at h; exact ih tcbs found i t hmem' h
      | some tcb =>
        simp only [hg] at h
        cases htask : (tcb.task == taskRef) with
        | false =>
          rw [htask] at h
          simp only [Bool.false_eq_true, if_false] at h
          exact ih tcbs found i t hmem' h
        | true =>
          rw [htask] at h
          simp only [reduceIte, Space.remove_of_get hg] at h
          cases hee : (tcb.entrypoint == entryAddr) with
          | true =>
            rw [hee] at h
            simp only [reduceIte] at h
            exact ih _ _ i t hmem' h
          | false =>
            rw [hee] at h
            simp only [Bool.false_eq_true, if_false] at h
            exact ih _ _ i t hmem' h

theorem panikScanGo_found (taskRef entryAddr : Nat) :
    ∀ (is : List Nat) (tcbs : Space Tcb) (found : Option Tcb),
    (∀ t, found = some t → t.task = taskRef ∧ t.entrypoint = entryAddr) →
    ∀ t, (panikScanGo taskRef entryAddr is tcbs found).2 = some t →
    t.task = taskRef ∧ t.entrypoint = entryAddr := by
  intro is
  induction is with
  | nil => intro tcbs found hinv t h; exact hinv t h
  | cons j js ih =>
    intro tcbs found hinv t h
    simp only [panikScanGo] at h
    cases hg : tcbs.get j with
    | none => simp only [hg] at h; exact ih tcbs found hinv t h
    | some tcb =>
      simp only [hg] at h
      cases htask : (tcb.task == taskRef) with
      | false =>
        rw [htask] at h
        simp only [Bool.false_eq_true, if_false] at h
        exact ih tcbs found hinv t h
      | true =>
        rw [htask] at h
        simp only [reduceIte, Space.remove_of_get hg] at h
        cases hee : (tcb.entrypoint == entryAddr) with
        | true =>
          rw [hee] at h
          simp only [reduceIte] at h
          refine ih _ _ ?_ t h
          intro t' ht'
          injection ht' with h''
          subst h''
          exact ⟨by simpa using htask, by simpa using hee⟩
        | false =>
          rw [hee] at h
          simp only [Bool.false_eq_true, if_false] at h
          exact ih _ _ hinv t h

/-!
Claim theorems.
-/

/-- C2 (counterexample): the mutable (output-buffer) translation accepts a
range inside a read-only region — the Write attribute the claim requires for
output buffers is not enforced — while it rejects a range inside a region
that carries Write but lacks Read. -/
theorem C2_counterexample :
    translateMutTaskPtrOk 100 8 [⟨0, 4096, attrRO⟩] = true ∧ attrRO.write = false ∧
    translateMutTaskPtrOk 100 8 [⟨0, 4096, attrWO⟩] = false ∧ attrWO.write = true := by
  decide

/-- C2 (amended): every user-supplied address/length pair is validated by
range containment in a single region of the caller task's region table, and
the only attribute ever consulted is Read — for input, output and page-loan
buffers alike (the mutable translation is the very same check, and the
result is invariant under rewriting every region's Write flag); a pair that
fails this containment-plus-Read check makes get_buf return BadAccess, and a
pair that passes is accepted. -/
theorem C2_theorem :
    (∀ (addr len : Nat) (rs : List Region), validateAddrRv64 addr len rs = true ↔
      ∃ r ∈ rs, r.rangeStart ≤ addr ∧ addr < r.rangeEnd ∧
        r.rangeStart ≤ addr + len - 1 ∧ addr + len - 1 < r.rangeEnd ∧
        r.attr.read = true) ∧
    (∀ (addr len : Nat) (rs : List Region), validateAddrCortexM addr len rs = true ↔
      ∃ r ∈ rs, r.rangeStart ≤ addr ∧ addr < r.rangeEnd ∧
        r.rangeStart ≤ addr + len ∧ addr + len < r.rangeEnd ∧
        r.attr.read = true) ∧
    (∀ (addr len : Nat) (rs : List Region) (b : Bool),
      validateAddrRv64 addr len
        (rs.map fun r => { r with attr := { r.attr with write := b } }) =
      validateAddrRv64 addr len rs) ∧
    translateMutTaskPtrOk = translateTaskPtrOk ∧
    (∀ (N : Nat) (k : Kernel) (tcb : Tcb) (task : Task) (addr len : Nat),
      k.tasks.get? tcb.task = some task →
      (getBuf N k tcb addr len = .ok (addr, len) ↔
        translateTaskPtrOk addr len task.regionTable = true) ∧
      (getBuf N k tcb addr len = .error (.abi .badAccess) ↔
        translateTaskPtrOk addr len task.regionTable = false)) := by
  refine ⟨?_, ?_, ?_, rfl, ?_⟩
  · intro addr len rs
    simp [validateAddrRv64, Region.containsAddr, List.any_eq_true, Bool.and_eq_true,
      decide_eq_true_eq, and_assoc]
  · intro addr len rs
    simp [validateAddrCortexM, Region.containsAddr, List.any_eq_true, Bool.and_eq_true,
      decide_eq_true_eq, and_assoc]
  · intro addr len rs b
    induction rs with
    | nil => rfl
    | cons r t ih =>
      simp only [validateAddrRv64] at ih
      simp only [List.map_cons, validateAddrRv64, List.any_cons]
      rw [ih]
      rfl
  · intro N k tcb task addr len h
    simp only [getBuf, h]
    by_cases ht : translateTaskPtrOk addr len task.regionTable = true
    · simp [ht]
    · have ht' : translateTaskPtrOk addr len task.regionTable = false := by
        simpa using ht
      simp [ht']

/-- C2 (witness): the clauses of the amended claim instantiated on concrete
inputs — the read/write region of taskBig accepts a contained pair, and an
out-of-region pair on kernelC7 yields BadAccess. -/
theorem C2_witness :
    (validateAddrRv64 100 8 [⟨0, 4096, attrRO⟩] = true ↔
      ∃ r ∈ [(⟨0, 4096, attrRO⟩ : Region)], r.rangeStart ≤ 100 ∧ 100 < r.rangeEnd ∧
        r.rangeStart ≤ 100 + 8 - 1 ∧ 100 + 8 - 1 < r.rangeEnd ∧ r.attr.read = true) ∧
    (getBuf 1024 kernelC7 (Tcb.new 0 0 7 5 6 64 0 []) 2000000 4 =
        .error (.abi .badAccess) ↔
      translateTaskPtrOk 2000000 4 taskBig.regionTable = false) :=
  ⟨C2_theorem.1 100 8 [⟨0, 4096, attrRO⟩],
   (C2_theorem.2.2.2.2 1024 kernelC7 (Tcb.new 0 0 7 5 6 64 0 []) taskBig 2000000 4 rfl).2⟩

/-- C5 (counterexample): after the first (consuming) use of the disposable
reply capability, a second use of the same cap-ref fails with the
kernel-internal InvalidCapRef error, which the syscall trap entry does not
turn into an ABI error return (it unwraps, i.e. panics the kernel), so the
caller does not receive the ABI InvalidCap error the claim promises. -/
theorem C5_counterexample :
    ((tcbC5.endpoint 100).bind fun pr => pr.2.endpoint 100) =
      .error .invalidCapRef ∧
    syscallErrorToUser .invalidCapRef = none ∧
    Except.error (α := Endpoint × Tcb) KernelError.invalidCapRef ≠
      Except.error (α := Endpoint × Tcb) (KernelError.abi .invalidCap) := by
  decide

/-- C5 (amended): the first send through a disposable Endpoint capability
consumes it — the node is removed from the holder's capability list during
lookup — and a second send or call using the same cap-ref fails: the lookup
no longer finds the capability and returns the kernel-internal InvalidCapRef
error (not the ABI InvalidCap), which the syscall entry treats as fatal
instead of returning it to the caller; replies are single-shot. -/
theorem C5_theorem (t : Tcb) (capRef : Nat) (entry : CapEntry) (ep : Endpoint)
    (h1 : t.capEntryFind capRef = some entry)
    (h2 : entry.cap = .endpoint ep)
    (h3 : ep.disposable = true)
    (h4 : t.capabilities.countP (fun c => c.nodeAddr == capRef) ≤ 1) :
    ∃ t', t.endpoint capRef = .ok (ep, t') ∧
      t'.capEntryFind capRef = none ∧
      t'.endpoint capRef = .error .invalidCapRef ∧
      t'.cap capRef = .error .invalidCapRef ∧
      syscallErrorToUser .invalidCapRef = none := by
  have hnone : ((t.capabilities.eraseP fun c => c.nodeAddr == capRef).find?
      fun c => c.nodeAddr == capRef) = none :=
    find?_eraseP_of_countP_le_one _ _ h4
  refine ⟨{ t with capabilities := t.capabilities.eraseP fun c => c.nodeAddr == capRef },
    ?_, ?_, ?_, ?_, rfl⟩
  · simp only [Tcb.endpoint, h1, h2, h3]
    exact if_pos trivial
  · simpa [Tcb.capEntryFind] using hnone
  · simp only [Tcb.endpoint, Tcb.capEntryFind]
    rw [hnone]
  · simp only [Tcb.cap, Tcb.capEntryFind]
    rw [hnone]

/-- C5 (witness): the amended claim applied to the concrete TCB holding one
disposable endpoint capability at node address 100. -/
theorem C5_witness :
    ∃ t', tcbC5.endpoint 100 = .ok (⟨2, 7, true⟩, t') ∧
      t'.capEntryFind 100 = none ∧
      t'.endpoint 100 = .error .invalidCapRef ∧
      t'.cap 100 = .error .invalidCapRef ∧
      syscallErrorToUser .invalidCapRef = none :=
  C5_theorem tcbC5 100 ⟨100, .endpoint ⟨2, 7, true⟩⟩ ⟨2, 7, true⟩ rfl rfl rfl
    (by decide)

/-- C6 (counterexample): switching to an entry for thread 1 (saved remaining
time 2, budget 9) that carries a loan from thread 2 (saved remaining time 7)
sets the new quantum to 7 — the loaner's time — not to the incoming
thread's saved remaining time 2 nor its budget 9, contradicting the claim's
restore rule. -/
theorem C6_counterexample :
    (cexSchedC6.switchThread ⟨1, some 2⟩).map (fun pr => (pr.1.current.time, pr.2)) =
      .ok (7, 1) ∧ (7 : Nat) ≠ 2 ∧ (7 : Nat) ≠ 9 := by
  decide

/-- C6 (amended): a context switch saves the departing quantum into the
time-accounting TCB (the loaner's when a loan is active, else the departing
thread's own), and restores the new quantum from the incoming entry's
time-accounting TCB — the loaner's TCB when the entry carries a loan,
otherwise the incoming thread's own — taking its saved remaining time when
non-zero and its full budget otherwise. -/
theorem C6_theorem (s : Scheduler) (next : DomainEntry) (saveTcb timeTcb : Tcb)
    (h1 : s.tcbs.get (s.current.loanedTcb.getD s.current.tcbRef) = some saveTcb)
    (h2 : (s.tcbs.setItem (s.current.loanedTcb.getD s.current.tcbRef)
        { saveTcb with remTime := s.current.time }).get
        (next.loanedTcb.getD next.tcbRef) = some timeTcb) :
    ∃ s', s.switchThread next = .ok (s', next.tcbRef) ∧
      s'.tcbs.get (s.current.loanedTcb.getD s.current.tcbRef) =
        some { saveTcb with remTime := s.current.time } ∧
      s'.current.time =
        (if 0 < timeTcb.remTime then timeTcb.remTime else timeTcb.budget) ∧
      s'.current.tcbRef = next.tcbRef ∧
      s'.current.loanedTcb = next.loanedTcb := by
  refine ⟨{ s with
      tcbs := s.tcbs.setItem (s.current.loanedTcb.getD s.current.tcbRef)
        { saveTcb with remTime := s.current.time },
      current := ⟨next.tcbRef,
        if 0 < timeTcb.remTime then timeTcb.remTime else timeTcb.budget,
        next.loanedTcb⟩ }, ?_, ?_, rfl, rfl, rfl⟩
  · simp only [Scheduler.switchThread, h1, h2]
  · exact Space.get_setItem_self h1 _

/-- C6 (witness): the amended claim applied to cexSchedC6 with the loaned
incoming entry. -/
theorem C6_witness :
    ∃ s', cexSchedC6.switchThread ⟨1, some 2⟩ = .ok (s', 1) ∧
      s'.tcbs.get 0 = some { Tcb.new 0 0 0 usizeMax 0 0 0 [] with remTime := 5 } ∧
      s'.current.time = (if 0 < (7 : Nat) then (7 : Nat) else 4) ∧
      s'.current.tcbRef = 1 ∧
      s'.current.loanedTcb = some 2 :=
  C6_theorem cexSchedC6 ⟨1, some 2⟩ (Tcb.new 0 0 0 usizeMax 0 0 0 [])
    { Tcb.new 2 0 7 4 3 0 0 [] with remTime := 7 } rfl rfl

/-- C7 (code bug): the current get_buf of syscalls.rs never consults its
length bound N, so a validated 1025-byte copy buffer (bound 1024) and a
validated 256-byte log buffer (bound 255) are both accepted, while the
older Kernel::get_syscall_buf of lib.rs — cited by the same claim — rejects
both with BufferOverflow before anything is enqueued or logged. -/
theorem C7_theorem :
    getBuf 1024 kernelC7 (Tcb.new 0 0 7 5 6 64 0 []) 0 1025 = .ok (0, 1025) ∧
    getSyscallBuf 1024 kernelC7 (Tcb.new 0 0 7 5 6 64 0 []) 0 1025 =
      .error (.abi .bufferOverflow) ∧
    getBuf 255 kernelC7 (Tcb.new 0 0 7 5 6 64 0 []) 0 256 = .ok (0, 256) ∧
    getSyscallBuf 255 kernelC7 (Tcb.new 0 0 7 5 6 64 0 []) 0 256 =
      .error (.abi .bufferOverflow) ∧
    getSyscallBuf 1024 kernelC7 (Tcb.new 0 0 7 5 6 64 0 []) 0 1024 = .ok (0, 1024) ∧
    getSyscallBuf 255 kernelC7 (Tcb.new 0 0 7 5 6 64 0 []) 0 255 = .ok (0, 255) := by
  decide

/-- C9: connecting through a Connect capability for port p installs, on a
registry hit, a new endpoint capability pointing at the listener at the tail
of the caller's capability list and returns the new node's address in the
pointer field of the syscall return; on a registry miss the syscall fails
with PortNotOpen and the kernel — in particular the caller's capability
list — is unchanged. -/
theorem C9_theorem (k : Kernel) (capRef fresh : Nat) (tcb : Tcb) (port : PortId)
    (h1 : k.scheduler.getTcb k.scheduler.current.tcbRef = .ok tcb)
    (h2 : tcb.cap capRef = .ok (.connect port)) :
    (∀ ep : Endpoint, registryConnect k.registry port = .ok ep →
      connectCall k capRef fresh =
        ({ k with scheduler := (k.scheduler.setTcb k.scheduler.current.tcbRef
             (tcb.addCap fresh (.endpoint ep))) },
         .ok { SyscallReturn.new with typ := .copy, ptr := fresh }) ∧
      (tcb.addCap fresh (.endpoint ep)).capabilities =
        tcb.capabilities ++ [⟨fresh, .endpoint ep⟩]) ∧
    (registryConnect k.registry port = .error .portNotOpen →
      connectCall k capRef fresh = (k, .error (.abi .portNotOpen))) := by
  constructor
  · intro ep hep
    constructor
    · simp only [connectCall, h1, h2, hep]
      simp [Tcb.addCap, List.getLast?_concat, SyscallReturn.new]
    · rfl
  · intro hmiss
    simp only [connectCall, h1, h2, hmiss]

/-- C9 (witness): the claim applied to the concrete kernels kernelC9 (hit on
portW) and kernelC9Miss (no listener). -/
theorem C9_witness :
    (connectCall kernelC9 400 777 =
      ({ kernelC9 with scheduler := kernelC9.scheduler.setTcb 1 tcbC9After },
       .ok { SyscallReturn.new with typ := .copy, ptr := 777 }) ∧
     tcbC9After.capabilities =
       [⟨400, .connect portW⟩] ++ [⟨777, .endpoint ⟨2, 0, false⟩⟩]) ∧
    connectCall kernelC9Miss 400 777 = (kernelC9Miss, .error (.abi .portNotOpen)) :=
  ⟨(C9_theorem kernelC9 400 777 tcbC9 portW rfl rfl).1 ⟨2, 0, false⟩ rfl,
   (C9_theorem kernelC9Miss 400 777 tcbC9 portW rfl rfl).2 rfl⟩

/-- C10: in recv_inner the mask-matching message is removed from the inbound
queue before the out-buffer length is compared with the message length, so a
ReturnTypeMismatch failure (lengths differ) leaves the queue one message
shorter — the matched message is destroyed, not redelivered; the recv
wrapper records the error in the saved syscall-return slot while the queue
stays shortened. -/
theorem C10_theorem (t : Tcb) (task : Task) (req : RecvReq) (fresh : Nat)
    (b : List IPCMsg) (m : IPCMsg) (a : List IPCMsg) (data : List Nat) (oa ol : Nat)
    (h1 : findMsg req.mask t.reqQueue = some (b, m, a))
    (h2 : m.body = .buf data) (h3 : req.inner = .buf oa ol)
    (h4 : task.validateBuf oa ol = true) (h5 : ol ≠ data.length) :
    t.recvInner task req fresh =
      ⟨{ t with reqQueue := b ++ a }, .error (.abi .returnTypeMismatch),
       none, none⟩ ∧
    t.reqQueue = b ++ m :: a ∧
    (t.recvInner task req fresh).tcb.reqQueue.length + 1 = t.reqQueue.length ∧
    (t.recv task req fresh).tcb.reqQueue = b ++ a ∧
    (t.recv task req fresh).tcb.savedReturn = AbiError.returnTypeMismatch.toReturn ∧
    (t.recv task req fresh).result = .ok .page := by
  have hq := (findMsg_decomp req.mask t.reqQueue b m a h1).1
  have hinner : t.recvInner task req fresh =
      ⟨{ t with reqQueue := b ++ a }, .error (.abi .returnTypeMismatch),
       none, none⟩ := by
    simp only [Tcb.recvInner, h1, h2, h3]
    rw [if_neg (by simp [h4]), if_pos h5]
  refine ⟨hinner, hq, ?_, ?_, ?_, ?_⟩
  · rw [hinner, hq]
    simp only [List.length_append, List.length_cons]
    omega
  · simp [Tcb.recv, hinner]
  · simp [Tcb.recv, hinner]
  · simp [Tcb.recv, hinner]

/-- C10 (witness): the claim applied to the kernelC3 receiver with a 2-byte
out-buffer against the queued 3-byte message. -/
theorem C10_witness :
    recvTcbC3.recvInner taskBig ⟨5, 2000, .buf 1000 2⟩ 999 =
      ⟨{ recvTcbC3 with reqQueue := [] ++ [] },
       .error (.abi .returnTypeMismatch), none, none⟩ ∧
    recvTcbC3.reqQueue = [] ++ (⟨5, none, .buf [1, 2, 3]⟩ : IPCMsg) :: [] ∧
    (recvTcbC3.recvInner taskBig ⟨5, 2000, .buf 1000 2⟩ 999).tcb.reqQueue.length + 1 =
      recvTcbC3.reqQueue.length ∧
    (recvTcbC3.recv taskBig ⟨5, 2000, .buf 1000 2⟩ 999).tcb.reqQueue = [] ++ [] ∧
    (recvTcbC3.recv taskBig ⟨5, 2000, .buf 1000 2⟩ 999).tcb.savedReturn =
      AbiError.returnTypeMismatch.toReturn ∧
    (recvTcbC3.recv taskBig ⟨5, 2000, .buf 1000 2⟩ 999).result = .ok .page :=
  C10_theorem recvTcbC3 taskBig ⟨5, 2000, .buf 1000 2⟩ 999 []
    ⟨5, none, .buf [1, 2, 3]⟩ [] [1, 2, 3] 1000 2 rfl rfl rfl (by decide) (by decide)

/-- C3: the recv cursor walk returns the earliest-queued message whose addr
masked with m equals m (no message in the skipped prefix matches), exactly
that message is removed from the FIFO whatever the delivery outcome, a
successful copy delivery writes the message body to the out-buffer, and when
no queued message matches, recv leaves the receiver (and its queue)
unchanged and the RecvCall path parks the thread Waiting with mask m. -/
theorem C3_theorem :
    (∀ (mask : Nat) (q : List IPCMsg), findMsg mask q = none ↔
      ∀ x ∈ q, ¬((x.addr &&& mask == mask) = true)) ∧
    (∀ (mask : Nat) (q b : List IPCMsg) (m : IPCMsg) (a : List IPCMsg),
      findMsg mask q = some (b, m, a) →
      q = b ++ m :: a ∧ (m.addr &&& mask == mask) = true ∧
      ∀ x ∈ b, ¬((x.addr &&& mask == mask) = true)) ∧
    (∀ (t : Tcb) (task : Task) (req : RecvReq) (fresh : Nat) (b : List IPCMsg)
      (m : IPCMsg) (a : List IPCMsg),
      findMsg req.mask t.reqQueue = some (b, m, a) →
      (t.recvInner task req fresh).tcb.reqQueue = b ++ a) ∧
    (∀ (t : Tcb) (task : Task) (req : RecvReq) (fresh : Nat) (b : List IPCMsg)
      (m : IPCMsg) (a : List IPCMsg) (data : List Nat) (oa ol : Nat),
      findMsg req.mask t.reqQueue = some (b, m, a) →
      m.body = .buf data → req.inner = .buf oa ol →
      task.validateBuf oa ol = true → ol = data.length →
      task.validateBuf req.respPtr recvRespSize = true →
      (t.recvInner task req fresh).result = .ok .copy ∧
      (t.recvInner task req fresh).outWrite = some (oa, data)) ∧
    (∀ (t : Tcb) (task : Task) (req : RecvReq) (fresh : Nat),
      findMsg req.mask t.reqQueue = none →
      t.recvInner task req fresh = ⟨t, .ok .notFound, none, none⟩) ∧
    (∀ (k : Kernel) (oa ol mask rp fresh : Nat) (t : Tcb) (task : Task)
      (s' : Scheduler) (next : Nat),
      k.scheduler.getTcb k.scheduler.current.tcbRef = .ok t →
      k.tasks.get? t.task = some task →
      findMsg mask t.reqQueue = none →
      (k.scheduler.setTcb k.scheduler.current.tcbRef t).wait mask oa ol rp false =
        .ok (s', next) →
      recvCall k oa ol mask rp false fresh =
        ({ k with scheduler := s' }, .ok (.replace next)) ∧
      (s'.tcbs.get k.scheduler.current.tcbRef).map Tcb.state =
        some (.waiting mask oa ol rp)) := by
  refine ⟨findMsg_eq_none, findMsg_decomp, ?_, ?_, ?_, ?_⟩
  · intro t task req fresh b m a h
    exact recvInner_queue h
  · intro t task req fresh b m a data oa ol h1 h2 h3 h4 h5 h6
    simp only [Tcb.recvInner, h1, h2, h3]
    rw [if_neg (by simp [h4]), if_neg (by simp [h5])]
    cases hre : m.replyEndpoint <;> simp only [finishRecv, hre] <;>
      rw [if_pos h6] <;> exact ⟨rfl, rfl⟩
  · intro t task req fresh h
    simp only [Tcb.recvInner, h]
  · intro k oa ol mask rp fresh t task s' next h1 h2 h3 h4
    have hinner : t.recvInner task ⟨mask, rp, .buf oa ol⟩ fresh =
        ⟨t, .ok .notFound, none, none⟩ := by
      simp only [Tcb.recvInner, h3]
    have hrecv : t.recv task ⟨mask, rp, .buf oa ol⟩ fresh =
        ⟨t, .ok .notFound, none, none⟩ := by
      simp [Tcb.recv, hinner]
    constructor
    · simp only [recvCall, Bool.false_eq_true, if_false, h1, h2, hrecv, h4]
    · have hget : (k.scheduler.setTcb k.scheduler.current.tcbRef t).tcbs.get
          (k.scheduler.setTcb k.scheduler.current.tcbRef t).current.tcbRef = some t := by
        exact Space.get_setItem_self (getTcb_some h1) t
      exact (wait_parts hget h4).1

/-- C3 (witness): the claim applied to the kernelC3 receiver — a matching
mask (5) delivers the queued body [1, 2, 3]; a non-matching mask (6) parks
the receiver Waiting through the RecvCall path. -/
theorem C3_witness :
    ((recvTcbC3.recvInner taskBig ⟨5, 2000, .buf 1000 3⟩ 999).result =
        .ok .copy ∧
     (recvTcbC3.recvInner taskBig ⟨5, 2000, .buf 1000 3⟩ 999).outWrite =
        some (1000, [1, 2, 3])) ∧
    (recvCall kernelC3 1000 3 6 2000 false 999 =
        ({ kernelC3 with scheduler := c3WaitSched }, .ok (.replace 0)) ∧
     (c3WaitSched.tcbs.get 2).map Tcb.state = some (.waiting 6 1000 3 2000)) :=
  ⟨C3_theorem.2.2.2.1 recvTcbC3 taskBig ⟨5, 2000, .buf 1000 3⟩ 999 []
      ⟨5, none, .buf [1, 2, 3]⟩ [] [1, 2, 3] 1000 3 rfl rfl rfl (by decide) rfl
      (by decide),
   C3_theorem.2.2.2.2.2 kernelC3 1000 3 6 2000 999 recvTcbC3 taskBig
      c3WaitSched 0 rfl rfl rfl (by decide)⟩

/-- C4: a call through an Endpoint capability with address a enqueues at the
callee a message carrying a disposable reply endpoint that targets the
caller's thread at address a OR 0x80000000; the caller transitions to
Waiting with mask equal to that reply address; and the scheduler switches
away from the caller with the loaned-tcb field of the new current-thread
record set to the caller, so time accounting debits the caller.  (The loan
flag of the current Kernel::call is modelled from the spec; everything else
is the cited source.) -/
theorem C4_theorem (k : Kernel) (dest : Nat) (body : IPCMsgBody)
    (oa ol rp fresh : Nat) (src : Tcb) (entry : CapEntry) (ep : Endpoint)
    (callee : Tcb)
    (h1 : k.scheduler.getTcb k.scheduler.current.tcbRef = .ok src)
    (h2 : src.capEntryFind dest = some entry)
    (h3 : entry.cap = .endpoint ep)
    (h4 : k.scheduler.tcbs.get ep.tcbRef = some callee)
    (h5 : ep.tcbRef ≠ k.scheduler.current.tcbRef)
    (h6 : callee.state = .ready)
    (h7 : k.scheduler.current.loanedTcb = none) :
    ∃ k' next, k.call dest body oa ol rp fresh = .ok (k', next) ∧
      (k'.scheduler.tcbs.get ep.tcbRef).map Tcb.reqQueue =
        some (callee.reqQueue ++
          [⟨ep.addr,
            some ⟨k.scheduler.current.tcbRef, ep.addr ||| 0x80000000, true⟩,
            body⟩]) ∧
      (k'.scheduler.tcbs.get k.scheduler.current.tcbRef).map Tcb.state =
        some (.waiting (ep.addr ||| 0x80000000) oa ol rp) ∧
      k'.scheduler.current.loanedTcb = some k.scheduler.current.tcbRef ∧
      k'.scheduler.current.tcbRef = next := by
  have hcur := getTcb_some h1
  obtain ⟨src', hend⟩ : ∃ s', src.endpoint dest = .ok (ep, s') := by
    cases hd : ep.disposable
    · exact ⟨src, by simp only [Tcb.endpoint, h2, h3, hd]; rw [if_neg (by simp)]⟩
    · exact ⟨_, by simp only [Tcb.endpoint, h2, h3, hd]; exact if_pos trivial⟩
  have hq1 : (k.scheduler.setTcb k.scheduler.current.tcbRef src').tcbs.get ep.tcbRef =
      some callee := by
    show (k.scheduler.tcbs.setItem k.scheduler.current.tcbRef src').get ep.tcbRef = _
    rw [Space.get_setItem_ne _ fun he => h5 he.symm]
    exact h4
  have hgd : (k.scheduler.setTcb k.scheduler.current.tcbRef src').getTcb ep.tcbRef =
      .ok callee := by
    unfold Scheduler.getTcb
    rw [hq1]
  have hsend := @sendInner_not_waiting
    { k with scheduler := k.scheduler.setTcb k.scheduler.current.tcbRef src' }
    ep body (some ⟨k.scheduler.current.tcbRef, ep.addr ||| 0x80000000, true⟩)
    fresh callee hgd h6
  have hsrc2 : ((k.scheduler.setTcb k.scheduler.current.tcbRef src').setTcb ep.tcbRef
      { callee with reqQueue := callee.reqQueue ++
        [⟨ep.addr, some ⟨k.scheduler.current.tcbRef, ep.addr ||| 0x80000000, true⟩,
          body⟩] }).tcbs.get k.scheduler.current.tcbRef = some src' := by
    show ((k.scheduler.tcbs.setItem k.scheduler.current.tcbRef src').setItem ep.tcbRef _).get
      k.scheduler.current.tcbRef = _
    rw [Space.get_setItem_ne _ h5]
    exact Space.get_setItem_self hcur _
  obtain ⟨s', r, hw, hstate, hloan, hcurr, hothers⟩ :=
    wait_ok ((k.scheduler.setTcb k.scheduler.current.tcbRef src').setTcb ep.tcbRef
      { callee with reqQueue := callee.reqQueue ++
        [⟨ep.addr, some ⟨k.scheduler.current.tcbRef, ep.addr ||| 0x80000000, true⟩,
          body⟩] })
      (ep.addr ||| 0x80000000) oa ol rp src' hsrc2 h7
  refine ⟨{ k with scheduler := s' }, r, ?_, ?_, ?_, ?_, ?_⟩
  · simp only [Kernel.call, h1, hend, hsend, hw]
  · rw [hothers ep.tcbRef h5]
    show (((k.scheduler.setTcb k.scheduler.current.tcbRef src').tcbs.setItem ep.tcbRef
      { callee with reqQueue := callee.reqQueue ++
        [⟨ep.addr, some ⟨k.scheduler.current.tcbRef, ep.addr ||| 0x80000000, true⟩,
          body⟩] }).get ep.tcbRef).map Tcb.reqQueue = _
    rw [Space.get_setItem_self hq1]
    rfl
  · exact hstate
  · exact hloan
  · exact hcurr

/-- C4 (witness): the claim applied to witnessKernel — caller thread 1 calls
its endpoint capability (node 300, callee thread 2, address 5) with body
[9, 9]. -/
theorem C4_witness :
    ∃ k' next, witnessKernel.call 300 (.buf [9, 9]) 1000 2 2000 999 =
        .ok (k', next) ∧
      (k'.scheduler.tcbs.get 2).map Tcb.reqQueue =
        some ([⟨5, none, .buf [1, 2, 3]⟩] ++
          [⟨5, some ⟨1, 5 ||| 0x80000000, true⟩, .buf [9, 9]⟩]) ∧
      (k'.scheduler.tcbs.get 1).map Tcb.state =
        some (.waiting (5 ||| 0x80000000) 1000 2 2000) ∧
      k'.scheduler.current.loanedTcb = some 1 ∧
      k'.scheduler.current.tcbRef = next :=
  C4_theorem witnessKernel 300 (.buf [9, 9]) 1000 2 2000 999
    (Tcb.new 1 0 7 5 6 64 0 [⟨300, .endpoint ⟨2, 5, false⟩⟩])
    ⟨300, .endpoint ⟨2, 5, false⟩⟩ ⟨2, 5, false⟩
    { Tcb.new 2 0 6 3 3 64 0 [] with reqQueue := [⟨5, none, .buf [1, 2, 3]⟩] }
    rfl rfl rfl rfl (by decide) rfl rfl

/-- C1 (counterexample): with exhausted list [thread 1 (1 tick left), thread
2 (5 ticks left)], one tick requeues thread 1, but thread 2's cooldown is
not decremented — it is still 5 where the claim's clause (1) requires 4 —
because the cursor loop skips the entry after a removal. -/
theorem C1_counterexample :
    (cexSchedC1.tick).map (fun pr => (pr.1.exhausted, pr.2)) =
      .ok ([⟨5, some 2, none⟩], some 1) ∧
    [(⟨5, some 2, none⟩ : ExhaustedThread)] ≠ [(⟨4, some 2, none⟩ : ExhaustedThread)] := by
  decide

/-- C1 (amended): the 15-tick idle/A/B trace runs exactly as claimed; a
singleton exhausted list is decremented and requeued at the tail of its
priority's ready queue per clause (1); budget exhaustion parks the current
thread at the front of the exhausted list with its time-accounting thread's
cooldown and switches to the chosen replacement; otherwise a strictly
higher-priority queued thread preempts, the scan choosing the front of the
highest non-empty ready queue (FIFO within one priority), and no preemption
happens exactly when every higher-priority queue is empty. -/
theorem C1_theorem :
    ((simpleTickSched.bind (tickTrace 15)).map Prod.snd =
      .ok [(some 1, 1), (none, 1), (none, 1), (none, 1), (none, 1),
           (some 2, 2), (none, 2), (none, 2),
           (some 0, 0), (none, 0), (none, 0),
           (some 2, 2), (none, 2), (none, 2),
           (some 1, 1)]) ∧
    (∀ (tcbs : Space Tcb) (domains : List (List DomainEntry)) (e : ExhaustedThread)
      (r : Nat), e.tcbRef = some r → 2 ≤ e.time →
      requeuePhaseA tcbs domains [] [e] =
        .ok ([{ e with time := e.time - 1 }], domains)) ∧
    (∀ (tcbs : Space Tcb) (domains : List (List DomainEntry)) (e : ExhaustedThread)
      (r : Nat) (tcb : Tcb) (d : List DomainEntry),
      e.tcbRef = some r → e.time ≤ 1 → tcbs.get r = some tcb →
      domains.get? tcb.priority = some d →
      requeuePhaseA tcbs domains [] [e] =
        .ok ([], domains.set tcb.priority (d ++ [DomainEntry.new r e.loanedTcb]))) ∧
    (∀ (s : Scheduler) (ct : Tcb), s.exhausted = [] → s.current.time = 1 →
      s.tcbs.get s.current.timeThread = some ct →
      s.tick = (
        let s2 : Scheduler := { s with
          current := { s.current with time := 0 }
          exhausted := [⟨ct.cooldown, some s.current.tcbRef, s.current.loanedTcb⟩] };
        let np := s2.pickNext 0;
        match np.2.switchThread np.1 with
        | .error e => .error e
        | .ok (s4, r) => .ok (s4, some r))) ∧
    (∀ (s : Scheduler) (ct : Tcb), s.exhausted = [] → 2 ≤ s.current.time →
      s.tcbs.get s.current.tcbRef = some ct →
      s.tick = (
        let s1 : Scheduler := { s with
          current := { s.current with time := s.current.time - 1 } };
        match s1.nextThread ct.priority with
        | none => .ok (s1, none)
        | some (next, s2) =>
          match s2.switchThread next with
          | .error e => .error e
          | .ok (s3, r) => .ok (s3, some r))) ∧
    (∀ (s : Scheduler) (cp : Nat), s.nextThread cp = none ↔
      ∀ p, cp < p → p ≤ 7 → s.domains.getD p [] = []) ∧
    (∀ (s : Scheduler) (cp p : Nat) (e : DomainEntry) (rest : List DomainEntry),
      cp < p → p ≤ 7 →
      (∀ q, p < q → q ≤ 7 → s.domains.getD q [] = []) →
      s.domains.getD p [] = e :: rest →
      s.nextThread cp = some (DomainEntry.new e.tcbRef e.loanedTcb,
        { s with domains := s.domains.set p rest })) := by
  refine ⟨by decide, ?_, ?_, ?_, ?_, ?_, ?_⟩
  · intro tcbs domains e r h1 h2
    simp only [requeuePhaseA, processExhausted, h1]
    rw [if_neg (by omega)]
    simp [requeuePhaseA]
  · intro tcbs domains e r tcb d h1 h2 h3 h4
    simp only [requeuePhaseA, processExhausted, h1, h3, h4]
    rw [if_pos (by omega)]
    simp [requeuePhaseB]
  · intro s ct hex htime h3
    simp only [ThreadTime.timeThread] at h3
    simp only [Scheduler.tick, hex, requeuePhaseA, htime, Nat.sub_self, ThreadTime.timeThread]
    rw [if_pos trivial]
    simp only [h3]
  · intro s ct hex htime h3
    simp only [Scheduler.tick, hex, requeuePhaseA]
    rw [if_neg (by omega)]
    simp only [h3]
  · intro s cp
    simp only [Scheduler.nextThread, Option.map_eq_none']
    rw [popDomains_eq_none]
    constructor
    · intro h p h1 h2
      exact h p ((mem_priosAbove p cp).mpr ⟨h1, h2⟩)
    · intro h p hp
      obtain ⟨h1, h2⟩ := (mem_priosAbove p cp).mp hp
      exact h p h1 h2
  · intro s cp p e rest h1 h2 h3 h4
    have hpop := popDomains_front s.domains (priosAbove cp) p e rest
      (pairwise_priosAbove cp) ((mem_priosAbove p cp).mpr ⟨h1, h2⟩)
      (fun q hq hpq => h3 q hpq ((mem_priosAbove q cp).mp hq).2) h4
    simp only [Scheduler.nextThread, hpop, Option.map_some']

/-- C1 (witness): the amended-claim clauses instantiated on concrete
schedulers — a singleton cooling entry, a singleton expiring entry, a
budget-exhaustion tick, a plain tick without preemption, and the FIFO pick
of the highest non-empty ready queue on kernelC8's scheduler. -/
theorem C1_witness :
    requeuePhaseA cexSchedC1.tcbs cexSchedC1.domains [] [⟨5, some 2, none⟩] =
      .ok ([⟨4, some 2, none⟩], cexSchedC1.domains) ∧
    requeuePhaseA cexSchedC1.tcbs cexSchedC1.domains [] [⟨1, some 1, none⟩] =
      .ok ([], cexSchedC1.domains.set 7 ([] ++ [DomainEntry.new 1 none])) ∧
    ({ cexSchedC1 with exhausted := [], current := ⟨0, 1, none⟩ } : Scheduler).tick = (
      let s2 : Scheduler := { cexSchedC1 with
        current := ⟨0, 0, none⟩
        exhausted := [⟨0, some 0, none⟩] };
      let np := s2.pickNext 0;
      match np.2.switchThread np.1 with
      | .error e => .error e
      | .ok (s4, r) => .ok (s4, some r)) ∧
    (kernelC8.scheduler.nextThread 7 = none ↔
      ∀ p, 7 < p → p ≤ 7 → kernelC8.scheduler.domains.getD p [] = []) ∧
    kernelC8.scheduler.nextThread 0 = some (DomainEntry.new 1 none,
      { kernelC8.scheduler with
        domains := kernelC8.scheduler.domains.set 7 [] }) := by
  refine ⟨?_, ?_, ?_, ?_, ?_⟩
  · exact C1_theorem.2.1 cexSchedC1.tcbs cexSchedC1.domains ⟨5, some 2, none⟩ 2 rfl
      (by decide)
  · exact C1_theorem.2.2.1 cexSchedC1.tcbs cexSchedC1.domains ⟨1, some 1, none⟩ 1
      (Tcb.new 1 0 7 5 6 0 0 []) [] rfl (by decide) (by decide) (by decide)
  · exact C1_theorem.2.2.2.1 _ (Tcb.new 0 0 0 usizeMax 0 0 0 []) rfl rfl (by decide)
  · exact C1_theorem.2.2.2.2.2.1 kernelC8.scheduler 7
  · exact C1_theorem.2.2.2.2.2.2 kernelC8.scheduler 0 7 (DomainEntry.new 1 none) []
      (by decide) (by decide)
      (fun q h1 h2 => absurd (Nat.lt_of_lt_of_le h1 h2) (Nat.lt_irrefl 7)) (by decide)

/-- C8 (counterexample to the original claim): a Panik syscall whose
panic-message buffer does not validate against the task's regions returns
BadAccess without performing any restart — the kernel state comes back
unchanged, the panicking thread is still in the TCB slab and its task was
not reset to Pending. -/
theorem C8_counterexample :
    panikCall kernelC8Bad 10 4 = (kernelC8Bad, .error (.abi .badAccess)) ∧
    kernelC8Bad.scheduler.tcbs.get 1 = some c8Tcb ∧
    (kernelC8Bad.tasks.getD 1 taskBig).state = TaskState.started := by
  decide

/-- C8 (amended): a Panik syscall whose panic-message buffer validates resets
and restarts the caller's task: the ready queues are purged of entries whose
TCB belongs to the task, every TCB of the task is removed from the slab, the
task record returns to Pending with its stack allocator reset to the initial
range, the recovered original thread has the task's entrypoint, and a fresh
thread is spawned from a TCB carrying the original thread's priority, budget,
cooldown and capability list with an empty inbound queue, after which the
scheduler switches to the next ready thread. -/
theorem C8_theorem (k : Kernel) (msgAddr msgLen : Nat) (tcb : Tcb) (task0 : Task)
    (orig : Tcb) (k4 : Kernel) (idx : Nat) (sched : Scheduler) (next : Nat)
    (h0 : k.scheduler.tcbs.items.length = TCB_CAPACITY)
    (h1 : k.scheduler.getTcb k.scheduler.current.tcbRef = .ok tcb)
    (h2 : getBuf 512 k tcb msgAddr msgLen = .ok (msgAddr, msgLen))
    (h3 : k.tasks.get? tcb.task = some task0)
    (h4 : (panikScanGo tcb.task
            (Task.resetStackPtr { task0 with state := TaskState.pending }).entrypoint
            (List.range TCB_CAPACITY) k.scheduler.tcbs none).2 = some orig)
    (h5 : (panikResetKernel k tcb.task task0).spawnThread tcb.task orig.priority
            orig.budget orig.cooldown orig.capabilities (orig.epoch + 1)
            = .ok (k4, idx))
    (h6 : ((k4.scheduler.pickNext 0).2.switchThread (k4.scheduler.pickNext 0).1)
            = .ok (sched, next)) :
    panikCall k msgAddr msgLen = ({ k4 with scheduler := sched }, .ok (.replace next)) ∧
    orig.task = tcb.task ∧
    orig.entrypoint = task0.entrypoint ∧
    (∀ i t, (panikResetKernel k tcb.task task0).scheduler.tcbs.get i = some t →
      ¬ t.task = tcb.task) ∧
    (∀ d, d ∈ (panikResetKernel k tcb.task task0).scheduler.domains →
      ∀ e ∈ d, ∀ t, k.scheduler.tcbs.get e.tcbRef = some t → ¬ t.task = tcb.task) ∧
    ((panikResetKernel k tcb.task task0).tasks.get? tcb.task =
      some (Task.resetStackPtr { task0 with state := TaskState.pending })) ∧
    (Task.resetStackPtr { task0 with state := TaskState.pending }).state
      = TaskState.pending ∧
    (Task.resetStackPtr { task0 with state := TaskState.pending }).availableStackPtr
      = [(task0.initialStackStart, task0.initialStackEnd)] ∧
    (∃ sp task2,
      (Task.resetStackPtr { task0 with state := TaskState.pending }).allocStack
        = some (sp, task2) ∧
      ∃ sched1,
      (panikResetKernel k tcb.task task0).scheduler.spawn
        (Tcb.new tcb.task sp orig.priority orig.budget orig.cooldown
          (Task.resetStackPtr { task0 with state := TaskState.pending }).entrypoint
          (orig.epoch + 1) orig.capabilities) = .ok (sched1, idx) ∧
      k4 = { panikResetKernel k tcb.task task0 with
             tasks := ((panikResetKernel k tcb.task task0).tasks.set tcb.task task2)
             scheduler := sched1 } ∧
      (Tcb.new tcb.task sp orig.priority orig.budget orig.cooldown
        (Task.resetStackPtr { task0 with state := TaskState.pending }).entrypoint
        (orig.epoch + 1) orig.capabilities).reqQueue = []) := by
  have hlt : tcb.task < k.tasks.length := by
    rw [List.get?_eq_getElem?] at h3
    by_contra hc
    rw [List.getElem?_eq_none (Nat.le_of_not_lt hc)] at h3
    exact Option.noConfusion h3
  have hlook : (panikResetKernel k tcb.task task0).tasks.get? tcb.task
      = some (Task.resetStackPtr { task0 with state := TaskState.pending }) := by
    simp only [panikResetKernel]
    rw [List.get?_eq_getElem?]
    exact List.getElem?_set_self hlt
  have hfound := panikScanGo_found tcb.task
    (Task.resetStackPtr { task0 with state := TaskState.pending }).entrypoint
    (List.range TCB_CAPACITY) k.scheduler.tcbs none
    (fun t ht => Option.noConfusion ht) orig h4
  refine ⟨?_, hfound.1, hfound.2, ?_, ?_, hlook, rfl, rfl, ?_⟩
  · have h5' := h5
    simp only [panikResetKernel] at h5'
    simp only [panikCall, h1, h2, h3, h4, h5', h6]
  · intro i t hget
    simp only [panikResetKernel] at hget
    by_cases hcap : i < TCB_CAPACITY
    · exact panikScanGo_purge tcb.task _ (List.range TCB_CAPACITY) k.scheduler.tcbs
        none i t (List.mem_range.mpr hcap) hget
    · have h2' := panikScanGo_mono tcb.task _ (List.range TCB_CAPACITY)
        k.scheduler.tcbs none i t hget
      rw [Space.get_none_of_le k.scheduler.tcbs
        (by rw [h0]; exact Nat.le_of_not_lt hcap)] at h2'
      exact Option.noConfusion h2'
  · intro d hd e he t hget
    simp only [panikResetKernel] at hd
    obtain ⟨d0, hd0, rfl⟩ := List.mem_map.mp hd
    have hkeep := List.of_mem_filter he
    simp only [panikKeep, hget] at hkeep
    simpa using hkeep
  · have h5' := h5
    simp only [Kernel.spawnThread, hlook] at h5'
    split at h5'
    · exact Except.noConfusion h5'
    · split at h5'
      · exact Except.noConfusion h5'
      · next sp task2 halloc =>
        split at h5'
        · exact Except.noConfusion h5'
        · next sched1 i hspawn =>
          injection h5' with hh
          injection hh with hk hidx
          refine ⟨sp, task2, halloc, sched1, ?_, hk.symm, rfl⟩
          rw [← hidx]
          exact hspawn

/-- C8 (witness): the amended claim applied to kernelC8, whose task-1 thread
(slot 1) paniks with a valid 4-byte message buffer at address 10: the result
is the re-spawned kernel with the post-switch scheduler, replacing to thread
1 (the respawned thread reuses slot 1). -/
theorem C8_witness :
    panikCall kernelC8 10 4
      = ({ c8Spawn.1 with scheduler := c8Switch.1 }, .ok (.replace c8Switch.2)) :=
  (C8_theorem kernelC8 10 4 c8Tcb c8Task0 c8Tcb c8Spawn.1 c8Spawn.2 c8Switch.1
    c8Switch.2 (by decide) (by decide) (by decide) (by decide) (by decide)
    (by decide) (by decide)).1

end K5
